import Mathlib

/-!
# Snake game (`script.js`): a shallow embedding and its properties

The module state of `script.js` (snake, food, direction, scores, clock text, the two
interval ids) together with the part of the browser it touches (class lists of the grid
blocks, the three text nodes, the inline `display` of the three modal elements, the
`highScore` slot of `localStorage`, the live intervals) is one record `State`.
Every handler of the script is a function on `State`.  A handler that can raise a
`TypeError` (a lookup in `blocks` that yields `undefined`, or `snake[0]` on an empty
array) returns a `Completion`, which keeps the state as it is at the point of the throw.

Coordinates and counters are integers (`Int`, `Nat`): the script only adds and subtracts
one on them.  The two places where the script's doubles matter are modelled as such: a
value of `Math.random()` is a double `num / 2 ^ exp` in `[0, 1)` and its product with the
board size is rounded to 53 significant bits before the floor; the clock reads and
increments numbers up to `2 ^ 53`, where the increment stops being exact.
-/

namespace Snake

/-! ## Data model -/

/-- A grid cell as the script writes it: `x` is the row index and `y` the column index. -/
structure Coord where
  x : Int
  y : Int
deriving DecidableEq, Repr

/-- The four strings the variable `direction` ever holds. -/
inductive Direction where
  | left
  | right
  | up
  | down
deriving DecidableEq, Repr

/-- The board size computed on lines 10 and 11 (two floored quotients, so naturals). -/
structure Grid where
  rows : Nat
  cols : Nat
deriving DecidableEq, Repr

/-- One value of `Math.random()`: a double in `[0, 1)`, that is `num / 2 ^ exp` with a
significand `num` of at most 53 bits and an exponent down to that of the smallest
subnormal. -/
structure Draw where
  num : Nat
  exp : Nat
  lt : num < 2 ^ exp
  prec : num < 2 ^ 53
  small : exp ≤ 1074

/-- How many binary digits `N` has beyond 53 (`fuel` bounds the recursion). -/
def excessBits : Nat → Nat → Nat
  | 0, _ => 0
  | fuel + 1, N => if N < 2 ^ 53 then 0 else excessBits fuel (N / 2) + 1

/-- The natural `N` rounded to a multiple of `2 ^ shift`, to nearest and ties to even. -/
def roundAt (shift N : Nat) : Nat :=
  if shift = 0 then N
  else if 2 ^ (shift - 1) < N % 2 ^ shift ∨
      (N % 2 ^ shift = 2 ^ (shift - 1) ∧ N / 2 ^ shift % 2 = 1) then
    (N / 2 ^ shift + 1) * 2 ^ shift
  else N / 2 ^ shift * 2 ^ shift

/-- The rounding of a double product: `N` kept to 53 significant bits, to nearest and
ties to even.  The exact product of the doubles `num / 2 ^ exp` and `n` is
`(num * n) / 2 ^ exp`, and the double the script gets is `roundToDouble (num * n) / 2 ^ exp`. -/
def roundToDouble (N : Nat) : Nat :=
  roundAt (excessBits N N) N

/-- The expression `Math.floor(Math.random() * n)` for a natural `n` (a double, as the
board sizes are): the floor of the rounded product. -/
def randomIndex (r : Draw) (n : Nat) : Int :=
  ((roundToDouble (r.num * n) / 2 ^ r.exp : Nat) : Int)

/-- The two callbacks the script hands to `setInterval`. -/
inductive Callback where
  | render
  | clock
deriving DecidableEq, Repr

/-- A live interval: the id `setInterval` returned and the callback it fires. -/
structure Timer where
  id : Nat
  job : Callback
deriving DecidableEq, Repr

/-- The module variables of `script.js` and the browser state the script reads or writes. -/
structure State where
  /-- Line 30: array of segments, head at index 0. -/
  snake : List Coord
  /-- Line 32. -/
  food : Coord
  /-- Line 39. -/
  direction : Direction
  /-- Line 42, by its numeric value. -/
  highScore : Nat
  /-- Line 43. -/
  score : Nat
  /-- Line 44: the text `MM:SS`. -/
  time : String
  /-- Line 26: the id of the last render interval, `none` for `null`. -/
  intervalId : Option Nat
  /-- Line 27: the id of the last clock interval, `none` for `null`. -/
  timeIntervalId : Option Nat
  /-- Intervals that are live in the browser. -/
  timers : List Timer
  /-- The id the next `setInterval` call returns. -/
  nextTimerId : Nat
  /-- Cells whose block carries the class `fill`. -/
  fillCells : List Coord
  /-- Cells whose block carries the class `food`. -/
  foodCells : List Coord
  /-- Value of `scoreElement.textContent`. -/
  scoreText : String
  /-- Value of `highScoreElement.textContent`. -/
  highScoreText : String
  /-- Value of `timeElement.textContent`. -/
  timeText : String
  /-- Value of `modal.style.display`. -/
  modalDisplay : String
  /-- Value of `startGameModal.style.display`. -/
  startGameModalDisplay : String
  /-- Value of `restartGameModal.style.display`. -/
  restartGameModalDisplay : String
  /-- The `highScore` slot of `localStorage`, `none` when the key is absent. -/
  storedHighScore : Option String
  /-- How many times `localStorage.setItem` has been called (instrumentation). -/
  setItemCalls : Nat

/-- How a handler ends: it returns, or a `TypeError` leaves it; the state is kept in both. -/
inductive Completion where
  | normal (s : State)
  | threw (s : State)

/-- The state a handler leaves behind. -/
def Completion.state : Completion → State
  | .normal s => s
  | .threw s => s

/-- Whether the handler returned without an exception. -/
def Completion.isNormal : Completion → Bool
  | .normal _ => true
  | .threw _ => false

/-! ## Numbers as text -/

/-- The decimal digit character of `d < 10`. -/
def digitChar (d : Nat) : Char :=
  Char.ofNat (48 + d)

/-- Digits of `n` (most significant first) in front of `acc`; `fuel` bounds the recursion. -/
def toDigits : Nat → Nat → List Char → List Char
  | 0, _, acc => acc
  | fuel + 1, n, acc =>
    if n < 10 then digitChar n :: acc
    else toDigits fuel (n / 10) (digitChar (n % 10) :: acc)

/-- The method `Number.prototype.toString` on a natural number below `10 ^ 21` (from
there on the script writes the exponent form): its decimal digits. -/
def numberToString (n : Nat) : List Char :=
  toDigits (n + 1) n []

/-- The method `String.prototype.padStart(n, c)` with a one character filler. -/
def padStart (n : Nat) (c : Char) (cs : List Char) : List Char :=
  List.replicate (n - cs.length) c ++ cs

/-- Whether a character is one of `0` to `9`. -/
def isDigit (c : Char) : Bool :=
  decide (48 ≤ c.toNat) && decide (c.toNat ≤ 57)

/-- The value of a string of decimal digits. -/
def digitsValue (cs : List Char) : Nat :=
  cs.foldl (fun a c => 10 * a + (c.toNat - 48)) 0

/-- Every natural up to `2 ^ 53` is a double; beyond it some are not. -/
def maxExact : Nat := 2 ^ 53

/-- The function `Number` on a string of decimal digits whose value is at most `2 ^ 53`
(the empty string gives `0`).  Other strings, and digit strings of a larger value, which
the script rounds, are outside the model and give `none`. -/
def Number (cs : List Char) : Option Nat :=
  if cs.all isDigit = true ∧ digitsValue cs ≤ maxExact then some (digitsValue cs) else none

/-- The operator `++` on a number: the double nearest to `n + 1`.  It is `n + 1` below
`2 ^ 53`; at `2 ^ 53` the sum is not a double and rounds back to `2 ^ 53`. -/
def increment (n : Nat) : Nat :=
  roundToDouble (n + 1)

/-- The call `split(":")`: the pieces between the colons. -/
def split : List Char → List (List Char)
  | [] => [[]]
  | c :: cs =>
    if c = ':' then [] :: split cs
    else
      match split cs with
      | [] => [[c]]
      | p :: ps => (c :: p) :: ps

/-- The template on lines 154 to 156: both fields padded to two characters. -/
def formatTime (mins secs : Nat) : String :=
  String.mk (padStart 2 '0' (numberToString mins) ++ ':' :: padStart 2 '0' (numberToString secs))

/-- The destructuring on line 146: the first two pieces of `time`, as numbers. -/
def parseTime (time : String) : Option (Nat × Nat) :=
  match (split time.data).map Number with
  | some mins :: some secs :: _ => some (mins, secs)
  | _ => none

/-- Lines 146 to 156: the new value of `time` after one run of the clock callback, with
`mins++` and `secs++` as the double increments they are. -/
def advanceTime (time : String) : Option String :=
  match parseTime time with
  | some (mins, secs) =>
    if secs = 59 then some (formatTime (increment mins) 0)
    else some (formatTime mins (increment secs))
  | none => none

/-! ## The grid blocks -/

/-- Lines 50 to 60: the keys under which a block is stored, in creation order. -/
def blocks (g : Grid) : List Coord :=
  (List.range g.rows).flatMap fun (row : Nat) =>
    (List.range g.cols).map fun (col : Nat) => Coord.mk (row : Int) (col : Int)

/-- Whether the lookup of a cell in `blocks` yields an element. -/
def hasBlock (g : Grid) (c : Coord) : Bool :=
  decide (c ∈ blocks g)

/-- The call `classList.add` on the block of cell `c`. -/
def classListAdd (c : Coord) (cells : List Coord) : List Coord :=
  if c ∈ cells then cells else c :: cells

/-- The call `classList.remove` on the block of cell `c`. -/
def classListRemove (c : Coord) (cells : List Coord) : List Coord :=
  cells.filter fun d => decide (d ≠ c)

/-! ## Intervals -/

/-- The call `setInterval`: a fresh id and the state with the new live interval. -/
def setInterval (job : Callback) (s : State) : Nat × State :=
  (s.nextTimerId,
    { s with timers := ⟨s.nextTimerId, job⟩ :: s.timers, nextTimerId := s.nextTimerId + 1 })

/-- The call `clearInterval`: a no-op on `null`, else the interval with that id stops. -/
def clearInterval (id : Option Nat) (timers : List Timer) : List Timer :=
  match id with
  | none => timers
  | some i => timers.filter fun t => decide (t.id ≠ i)

/-! ## The handlers -/

/-- Lines 70 to 78: the next head for each direction. -/
def newHead (d : Direction) (seg0 : Coord) : Coord :=
  match d with
  | .left => ⟨seg0.x, seg0.y - 1⟩
  | .right => ⟨seg0.x, seg0.y + 1⟩
  | .up => ⟨seg0.x - 1, seg0.y⟩
  | .down => ⟨seg0.x + 1, seg0.y⟩

/-- The test on line 81. -/
def outside (g : Grid) (head : Coord) : Bool :=
  decide (head.x < 0) || decide (head.x ≥ g.rows) || decide (head.y < 0) || decide (head.y ≥ g.cols)

/-- Lines 121 to 124 and 173 to 176: remove `fill` from the block of each segment in turn;
a segment without a block throws. -/
def forEachRemoveFill (g : Grid) : List Coord → State → Completion
  | [], s => .normal s
  | segment :: rest, s =>
    if hasBlock g segment then
      forEachRemoveFill g rest { s with fillCells := classListRemove segment s.fillCells }
    else .threw s

/-- Lines 131 to 134: add `fill` to the block of each segment in turn. -/
def forEachAddFill (g : Grid) : List Coord → State → Completion
  | [], s => .normal s
  | segment :: rest, s =>
    if hasBlock g segment then
      forEachAddFill g rest { s with fillCells := classListAdd segment s.fillCells }
    else .threw s

/-- Line 104 (and line 67): add `food` to the block of the food cell; no block throws. -/
def markFood (g : Grid) (s : State) : Completion :=
  if hasBlock g s.food then .normal { s with foodCells := classListAdd s.food s.foodCells }
  else .threw s

/-- Lines 106 to 111: put the head in front of the snake, add one to the score, show it. -/
def growAndScore (head : Coord) (s : State) : State :=
  { s with
    snake := head :: s.snake
    score := s.score + 1
    scoreText := String.mk (numberToString (s.score + 1)) }

/-- Lines 113 to 117: take over and store a score above the high score. -/
def persistHighScore (s : State) : State :=
  if s.score > s.highScore then
    { s with
      highScore := s.score
      storedHighScore := some (String.mk (numberToString s.score))
      setItemCalls := s.setItemCalls + 1 }
  else s

/-- Lines 93 to 118: the food branch of `render`. -/
def consumeFood (g : Grid) (r1 r2 : Draw) (head : Coord) (s : State) : Completion :=
  if head.x = s.food.x ∧ head.y = s.food.y then
    if hasBlock g s.food then
      let s1 := { s with foodCells := classListRemove s.food s.foodCells }
      let s2 := { s1 with food := ⟨randomIndex r1 g.rows, randomIndex r2 g.cols⟩ }
      match markFood g s2 with
      | .threw s3 => .threw s3
      | .normal s3 => .normal (persistHighScore (growAndScore head s3))
    else .threw s
  else .normal s

/-- Lines 120 to 134: clear the old cells, move the snake, draw the new cells. -/
def moveSnake (g : Grid) (head : Coord) (s : State) : Completion :=
  match forEachRemoveFill g s.snake s with
  | .threw s1 => .threw s1
  | .normal s1 =>
    let s2 := { s1 with snake := (head :: s1.snake).dropLast }
    forEachAddFill g s2.snake s2

/-- Lines 82 to 88: stop both intervals and show the restart modal. -/
def gameOver (s : State) : State :=
  { s with
    timers := clearInterval s.timeIntervalId (clearInterval s.intervalId s.timers)
    modalDisplay := "flex"
    startGameModalDisplay := "none"
    restartGameModalDisplay := "flex" }

/-- Lines 63 to 135: the function `render`, with the two draws a food placement uses. -/
def render (g : Grid) (r1 r2 : Draw) (s : State) : Completion :=
  if hasBlock g s.food then
    let s1 := { s with foodCells := classListAdd s.food s.foodCells }
    match s1.snake with
    | [] => .threw s1
    | seg0 :: _ =>
      let head := newHead s1.direction seg0
      if outside g head then .normal (gameOver s1)
      else
        match consumeFood g r1 r2 head s1 with
        | .threw s2 => .threw s2
        | .normal s2 => moveSnake g head s2
  else .threw s

/-- Lines 138 to 160: the click handler of the start button. -/
def startButtonClick (s : State) : State :=
  let s1 := { s with modalDisplay := "none" }
  let a := setInterval .render s1
  let s2 := { a.2 with intervalId := some a.1 }
  let b := setInterval .clock s2
  { b.2 with timeIntervalId := some b.1 }

/-- Lines 145 to 159 and 191 to 205: the clock callback.  It reads the two numbers of
`time`, increments one of them as a double, and writes the new text to `time` and to the
time element.  It is `none` when `time` is outside the model of `Number`: not a pair of
digit strings, or a number above `2 ^ 53`. -/
def clockCallback (s : State) : Option State :=
  match advanceTime s.time with
  | some t => some { s with time := t, timeText := t }
  | none => none

/-- Lines 166 to 213: the function `restartGame`, with the two draws of the food placement. -/
def restartGame (g : Grid) (r1 r2 : Draw) (s : State) : Completion :=
  let s1 :=
    if hasBlock g s.food then { s with foodCells := classListRemove s.food s.foodCells } else s
  match forEachRemoveFill g s1.snake s1 with
  | .threw s2 => .threw s2
  | .normal s2 =>
    let s3 := { s2 with
      modalDisplay := "none"
      direction := .down
      snake := [⟨1, 3⟩]
      food := ⟨randomIndex r1 g.rows, randomIndex r2 g.cols⟩ }
    let a := setInterval .render s3
    let s4 := { a.2 with intervalId := some a.1 }
    let b := setInterval .clock s4
    let s5 := { b.2 with timeIntervalId := some b.1 }
    let s6 := { s5 with score := 0, time := "00:00" }
    .normal { s6 with
      timeText := s6.time
      scoreText := String.mk (numberToString s6.score)
      highScoreText := String.mk (numberToString s6.highScore) }

/-- Lines 216 to 226: the `keydown` handler, given `e.key`. -/
def keydown (key : String) (s : State) : State :=
  if key = "ArrowLeft" then { s with direction := .left }
  else if key = "ArrowRight" then { s with direction := .right }
  else if key = "ArrowUp" then { s with direction := .up }
  else if key = "ArrowDown" then { s with direction := .down }
  else s

/-- What the document holds before the script runs: the two text nodes the script does not
set at load time and the inline `display` of the three modal elements. -/
structure Document where
  scoreText : String
  timeText : String
  modalDisplay : String
  startGameModalDisplay : String
  restartGameModalDisplay : String

/-- Lines 26 to 47: the state once the script has been loaded.  `stored` is the number in
the `highScore` slot of `localStorage`, `none` when the key is absent. -/
def initialState (g : Grid) (r1 r2 : Draw) (stored : Option Nat) (doc : Document) : State :=
  { snake := [⟨1, 3⟩]
    food := ⟨randomIndex r1 g.rows, randomIndex r2 g.cols⟩
    direction := .down
    highScore := stored.getD 0
    score := 0
    time := "00:00"
    intervalId := none
    timeIntervalId := none
    timers := []
    nextTimerId := 1
    fillCells := []
    foodCells := []
    scoreText := doc.scoreText
    highScoreText := String.mk (numberToString (stored.getD 0))
    timeText := doc.timeText
    modalDisplay := doc.modalDisplay
    startGameModalDisplay := doc.startGameModalDisplay
    restartGameModalDisplay := doc.restartGameModalDisplay
    storedHighScore := stored.map fun n => String.mk (numberToString n)
    setItemCalls := 0 }

/-! ## Runs of the page -/

/-- What can happen to the page: a click on the start button, one firing of the render
interval, a key press, a click on the restart button. -/
inductive Event where
  | start
  | tick (r1 r2 : Draw)
  | keydown (key : String)
  | restart (r1 r2 : Draw)

/-- Whether the event is a click on the start button. -/
def Event.isStart : Event → Bool
  | .start => true
  | _ => false

/-- The state after one event; an exception ends the handler and keeps its state. -/
def step (g : Grid) (e : Event) (s : State) : State :=
  match e with
  | .start => startButtonClick s
  | .tick r1 r2 => (render g r1 r2 s).state
  | .keydown key => keydown key s
  | .restart r1 r2 => (restartGame g r1 r2 s).state

/-- The state after a sequence of events, oldest first. -/
def run (g : Grid) : List Event → State → State
  | [], s => s
  | e :: es, s => run g es (step g e s)

/-- The state in which the start button has just been clicked, after the key presses
`keys` made while the start modal was showing. -/
def startState (g : Grid) (r1 r2 : Draw) (stored : Option Nat) (doc : Document)
    (keys : List String) : State :=
  startButtonClick (run g (keys.map Event.keydown) (initialState g r1 r2 stored doc))

/-- The next head `render` computes in state `s`, when the snake has a first segment. -/
def nextHead (s : State) : Option Coord :=
  match s.snake with
  | [] => none
  | seg0 :: _ => some (newHead s.direction seg0)

/-- A tick in state `s` collides: the next head fails the test of line 81. -/
def collides (g : Grid) (s : State) : Bool :=
  match nextHead s with
  | none => false
  | some head => outside g head

/-- A tick in state `s` eats: it does not collide and the next head is the food cell. -/
def eats (g : Grid) (s : State) : Bool :=
  match nextHead s with
  | none => false
  | some head => !outside g head && decide (head = s.food)

/-- The game has been ended by line 82 to 88: the two intervals named by the id variables
are not live and the restart modal is showing. -/
def ended (s : State) : Prop :=
  (∀ i, s.intervalId = some i → ∀ t ∈ s.timers, t.id ≠ i) ∧
  (∀ i, s.timeIntervalId = some i → ∀ t ∈ s.timers, t.id ≠ i) ∧
  s.modalDisplay = "flex" ∧ s.startGameModalDisplay = "none" ∧
  s.restartGameModalDisplay = "flex"

/-- As the code counts: the number of eating ticks in the run `es` from `s` since
`restartGame` last ran to its end (line 208), counted on from `n`.  A restart that throws
and a click on start reset nothing.  The count in the words of the claim is
`eatingTicksSince`. -/
def eatingTicks (g : Grid) : List Event → State → Nat → Nat
  | [], _, n => n
  | .tick r1 r2 :: es, s, n =>
    eatingTicks g es (step g (.tick r1 r2) s) (if eats g s then n + 1 else n)
  | .restart r1 r2 :: es, s, n =>
    eatingTicks g es (step g (.restart r1 r2) s)
      (if (restartGame g r1 r2 s).isNormal then 0 else n)
  | e :: es, s, n => eatingTicks g es (step g e s) n

/-- The values of `score` in the states of the run `es` from `s`, the start included. -/
def scoresReached (g : Grid) : List Event → State → List Nat
  | [], s => [s.score]
  | e :: es, s => s.score :: scoresReached g es (step g e s)

/-- Consecutive ticks, stopping at the first one that throws. -/
def ticks (g : Grid) : List (Draw × Draw) → State → Completion
  | [], s => .normal s
  | r :: rs, s =>
    match render g r.1 r.2 s with
    | .normal s1 => ticks g rs s1
    | .threw s1 => .threw s1

/-- The cells left with `fill` once `forEachRemoveFill` has gone through `segs`. -/
def removeFills (segs : List Coord) (cells : List Coord) : List Coord :=
  segs.foldl (fun f c => classListRemove c f) cells

/-- The cells with `fill` once `forEachAddFill` has gone through `segs`. -/
def addFills (segs : List Coord) (cells : List Coord) : List Coord :=
  segs.foldl (fun f c => classListAdd c f) cells

/-- The state at the end of the food branch (lines 95 to 117) when it runs through. -/
def eaten (g : Grid) (r1 r2 : Draw) (head : Coord) (s : State) : State :=
  { s with
    foodCells :=
      classListAdd ⟨randomIndex r1 g.rows, randomIndex r2 g.cols⟩
        (classListRemove s.food s.foodCells)
    food := ⟨randomIndex r1 g.rows, randomIndex r2 g.cols⟩
    snake := head :: s.snake
    score := s.score + 1
    scoreText := String.mk (numberToString (s.score + 1))
    highScore := if s.score + 1 > s.highScore then s.score + 1 else s.highScore
    storedHighScore :=
      if s.score + 1 > s.highScore then some (String.mk (numberToString (s.score + 1)))
      else s.storedHighScore
    setItemCalls := if s.score + 1 > s.highScore then s.setItemCalls + 1 else s.setItemCalls }

/-- The state after line 67 has marked the food cell. -/
def foodMarked (s : State) : State :=
  { s with foodCells := classListAdd s.food s.foodCells }

/-- The state at the end of lines 120 to 134 when both loops run through. -/
def moved (head : Coord) (s : State) : State :=
  { s with
    fillCells := addFills (head :: s.snake).dropLast (removeFills s.snake s.fillCells)
    snake := (head :: s.snake).dropLast }

/-- The tick advances the snake: `render` returns, the first segment is now the next head,
and nothing of lines 82 to 88 has happened (intervals and modal are as before). -/
def advances (g : Grid) (r1 r2 : Draw) (s : State) : Prop :=
  ∃ s1, render g r1 r2 s = .normal s1 ∧ s1.snake.head? = nextHead s ∧
    s1.timers = s.timers ∧ s1.modalDisplay = s.modalDisplay ∧
    s1.startGameModalDisplay = s.startGameModalDisplay ∧
    s1.restartGameModalDisplay = s.restartGameModalDisplay

/-- The tick ends the game: `render` returns through lines 82 to 89, so that both
intervals are stopped, the restart modal shows and the snake has not moved. -/
def endsGame (g : Grid) (r1 r2 : Draw) (s : State) : Prop :=
  ∃ s1, render g r1 r2 s = .normal s1 ∧ ended s1 ∧ s1.snake = s.snake ∧
    s1.timers = clearInterval s.timeIntervalId (clearInterval s.intervalId s.timers)

/-- A five by five board. -/
def grid5 : Grid := ⟨5, 5⟩

/-- The draw `0`. -/
def draw0 : Draw := ⟨0, 0, by decide, by decide, by decide⟩

/-- A document with empty text nodes and no inline styles. -/
def blankDocument : Document := ⟨"", "", "", "", ""⟩

/-- The state at the end of `restartGame` (lines 166 to 213) when it runs through. -/
def restarted (g : Grid) (r1 r2 : Draw) (s : State) : State :=
  { s with
    foodCells := if hasBlock g s.food then classListRemove s.food s.foodCells else s.foodCells
    fillCells := removeFills s.snake s.fillCells
    modalDisplay := "none"
    direction := .down
    snake := [⟨1, 3⟩]
    food := ⟨randomIndex r1 g.rows, randomIndex r2 g.cols⟩
    timers := ⟨s.nextTimerId + 1, .clock⟩ :: ⟨s.nextTimerId, .render⟩ :: s.timers
    nextTimerId := s.nextTimerId + 1 + 1
    intervalId := some s.nextTimerId
    timeIntervalId := some (s.nextTimerId + 1)
    score := 0
    time := "00:00"
    timeText := "00:00"
    scoreText := String.mk (numberToString 0)
    highScoreText := String.mk (numberToString s.highScore) }

/-- The cell a food placement makes of its two draws (lines 33 and 34, 99 and 100, 183
and 184 are the same expression). -/
def foodAt (g : Grid) (r1 r2 : Draw) : Coord :=
  ⟨randomIndex r1 g.rows, randomIndex r2 g.cols⟩

/-- Lines 1 to 60: loading the script.  No statement on these lines tests `rows` or
`cols` or the cell of the first segment, so the load returns for every board. -/
def loadScript (g : Grid) (r1 r2 : Draw) (stored : Option Nat) (doc : Document) : Completion :=
  .normal (initialState g r1 r2 stored doc)

/-- The draw `1 / 2`. -/
def draw12 : Draw := ⟨1, 1, by decide, by decide, by decide⟩

/-- The state is on the board: the food cell and every segment have a block, the snake
is not empty, and only cells of the snake carry `fill`. -/
def onBoard (g : Grid) (s : State) : Prop :=
  hasBlock g s.food = true ∧ s.snake ≠ [] ∧ (∀ c ∈ s.snake, hasBlock g c = true) ∧
    ∀ c ∈ s.fillCells, c ∈ s.snake

/-- The draw `3 / 4`. -/
def draw34 : Draw := ⟨3, 2, by decide, by decide, by decide⟩

/-- A draw just below `3 / 11`, whose product with `11` rounds up to `3`. -/
def drawNear : Draw := ⟨1228254443828317, 52, by decide, by decide, by decide⟩

/-- In the words of the claim: the number of eating ticks in the run `es` from `s` since
the last click on start or on restart (whether or not the handler ran to its end),
counted on from `n`. -/
def eatingTicksSince (g : Grid) : List Event → State → Nat → Nat
  | [], _, n => n
  | .tick r1 r2 :: es, s, n =>
    eatingTicksSince g es (step g (.tick r1 r2) s) (if eats g s then n + 1 else n)
  | .restart r1 r2 :: es, s, _ => eatingTicksSince g es (step g (.restart r1 r2) s) 0
  | .start :: es, s, _ => eatingTicksSince g es (step g .start s) 0
  | .keydown key :: es, s, n => eatingTicksSince g es (step g (.keydown key) s) n

/-! ## Blocks, bounds and draws -/

theorem mem_blocks_iff (g : Grid) (c : Coord) :
    c ∈ blocks g ↔ 0 ≤ c.x ∧ c.x < g.rows ∧ 0 ≤ c.y ∧ c.y < g.cols := by
  unfold blocks
  simp only [List.mem_flatMap, List.mem_map, List.mem_range]
  constructor
  · rintro ⟨r, hr, k, hk, rfl⟩
    simp only
    omega
  · rintro ⟨h1, h2, h3, h4⟩
    refine ⟨c.x.toNat, by omega, c.y.toNat, by omega, ?_⟩
    cases c with
    | mk x y =>
      simp only at h1 h2 h3 h4 ⊢
      rw [Int.toNat_of_nonneg h1, Int.toNat_of_nonneg h3]

theorem hasBlock_iff (g : Grid) (c : Coord) :
    hasBlock g c = true ↔ 0 ≤ c.x ∧ c.x < g.rows ∧ 0 ≤ c.y ∧ c.y < g.cols := by
  simp [hasBlock, mem_blocks_iff]

theorem outside_eq_false_iff (g : Grid) (c : Coord) :
    outside g c = false ↔ hasBlock g c = true := by
  rw [hasBlock_iff]
  simp only [outside, Bool.or_eq_false_iff, decide_eq_false_iff_not]
  omega

theorem outside_eq_true_iff (g : Grid) (c : Coord) :
    outside g c = true ↔ hasBlock g c = false := by
  rw [← Bool.not_eq_false, outside_eq_false_iff]
  simp

theorem randomIndex_nonneg (r : Draw) (n : Nat) : 0 ≤ randomIndex r n := by
  unfold randomIndex
  exact Int.ofNat_nonneg _

theorem excessBits_bound (fuel : Nat) :
    ∀ N : Nat, 1 ≤ excessBits fuel N → 2 ^ (52 + excessBits fuel N) ≤ N := by
  induction fuel with
  | zero => intro N h; simp [excessBits] at h
  | succ fuel ih =>
    intro N h
    unfold excessBits at h ⊢
    split at h
    · omega
    · rename_i hN
      by_cases h1 : 1 ≤ excessBits fuel (N / 2)
      · have := ih _ h1
        have e : 52 + (excessBits fuel (N / 2) + 1) = (52 + excessBits fuel (N / 2)) + 1 := by
          omega
        rw [if_neg hN, e, Nat.pow_succ]
        omega
      · have h0 : excessBits fuel (N / 2) = 0 := by omega
        rw [if_neg hN, h0]
        show 2 ^ 53 ≤ N
        omega

/-- With fuel `N` the quotient kept by `roundToDouble` has at most 53 bits. -/
theorem excessBits_small (fuel : Nat) :
    ∀ N : Nat, N ≤ fuel → N / 2 ^ excessBits fuel N < 2 ^ 53 := by
  induction fuel with
  | zero => intro N h; simp [excessBits]; omega
  | succ fuel ih =>
    intro N h
    unfold excessBits
    split
    · simpa using ‹N < 2 ^ 53›
    · rename_i hN
      have := ih (N / 2) (by omega)
      rw [Nat.pow_succ, Nat.mul_comm, ← Nat.div_div_eq_div_mul]
      exact this

theorem roundAt_le (shift N : Nat) (h : 1 ≤ shift) :
    roundAt shift N ≤ N + 2 ^ (shift - 1) := by
  have hp : 2 ^ shift = 2 * 2 ^ (shift - 1) := by
    conv_lhs => rw [show shift = (shift - 1) + 1 by omega]
    rw [Nat.pow_succ, Nat.mul_comm]
  have hdm := Nat.div_add_mod N (2 ^ shift)
  rw [Nat.mul_comm] at hdm
  unfold roundAt
  rw [if_neg (by omega)]
  split
  · rename_i hup
    rw [Nat.add_mul, Nat.one_mul]
    rcases hup with h1 | ⟨h1, _⟩ <;> omega
  · omega

/-- The rounded product of a double below one and a positive `n` stays below `n`: the
exact product is at least `n / 2 ^ exp` short of `n`, and rounding adds less than that. -/
theorem roundToDouble_lt (m n e : Nat) (hm : m < 2 ^ e) (hp : m < 2 ^ 53) (hn : 0 < n) :
    roundToDouble (m * n) < 2 ^ e * n := by
  unfold roundToDouble
  by_cases h0 : excessBits (m * n) (m * n) = 0
  · rw [h0]
    simp only [roundAt, if_true]
    exact Nat.mul_lt_mul_of_pos_right hm hn
  · have h1 : 1 ≤ excessBits (m * n) (m * n) := by omega
    have hb := excessBits_bound _ _ h1
    have hr := roundAt_le _ (m * n) h1
    generalize excessBits (m * n) (m * n) = k at h1 hb hr
    have hk : 52 + k = (k - 1) + 53 := by omega
    rw [hk, Nat.pow_add] at hb
    have hmn : m * n < 2 ^ 53 * n := Nat.mul_lt_mul_of_pos_right hp hn
    have hhalf : 2 ^ (k - 1) < n := by
      have : 2 ^ (k - 1) * 2 ^ 53 < n * 2 ^ 53 := by
        rw [Nat.mul_comm n]
        omega
      exact Nat.lt_of_mul_lt_mul_right this
    have : (m + 1) * n ≤ 2 ^ e * n := Nat.mul_le_mul_right n hm
    rw [Nat.add_mul, Nat.one_mul] at this
    omega

theorem randomIndex_lt (r : Draw) (n : Nat) (h : 0 < n) : randomIndex r n < n := by
  unfold randomIndex
  have : roundToDouble (r.num * n) / 2 ^ r.exp < n := by
    rw [Nat.div_lt_iff_lt_mul (Nat.two_pow_pos r.exp)]
    rw [Nat.mul_comm n]
    exact roundToDouble_lt r.num n r.exp r.lt r.prec h
  exact_mod_cast this

theorem hasBlock_randomFood (g : Grid) (r1 r2 : Draw) (c : Coord) (h : hasBlock g c = true) :
    hasBlock g ⟨randomIndex r1 g.rows, randomIndex r2 g.cols⟩ = true := by
  rw [hasBlock_iff] at h ⊢
  have hr : 0 < g.rows := by omega
  have hc : 0 < g.cols := by omega
  exact ⟨randomIndex_nonneg _ _, randomIndex_lt _ _ hr, randomIndex_nonneg _ _,
    randomIndex_lt _ _ hc⟩

/-! ## The two loops over the segments -/

theorem forEachRemoveFill_normal (g : Grid) (segs : List Coord) :
    ∀ s : State, (∀ c ∈ segs, hasBlock g c = true) →
      forEachRemoveFill g segs s = .normal { s with fillCells := removeFills segs s.fillCells } := by
  induction segs with
  | nil => intro s _; rfl
  | cons c cs ih =>
    intro s h
    have hc : hasBlock g c = true := h c (List.mem_cons_self _ _)
    have hcs : ∀ d ∈ cs, hasBlock g d = true := fun d hd => h d (List.mem_cons_of_mem _ hd)
    simp only [forEachRemoveFill, hc, if_true]
    rw [ih _ hcs]
    rfl

theorem forEachAddFill_normal (g : Grid) (segs : List Coord) :
    ∀ s : State, (∀ c ∈ segs, hasBlock g c = true) →
      forEachAddFill g segs s = .normal { s with fillCells := addFills segs s.fillCells } := by
  induction segs with
  | nil => intro s _; rfl
  | cons c cs ih =>
    intro s h
    have hc : hasBlock g c = true := h c (List.mem_cons_self _ _)
    have hcs : ∀ d ∈ cs, hasBlock g d = true := fun d hd => h d (List.mem_cons_of_mem _ hd)
    simp only [forEachAddFill, hc, if_true]
    rw [ih _ hcs]
    rfl

theorem forEachRemoveFill_state (g : Grid) (segs : List Coord) :
    ∀ s : State, ∃ cells, (forEachRemoveFill g segs s).state = { s with fillCells := cells } := by
  induction segs with
  | nil => intro s; exact ⟨s.fillCells, rfl⟩
  | cons c cs ih =>
    intro s
    by_cases hc : hasBlock g c = true
    · simp only [forEachRemoveFill, hc, if_true]
      obtain ⟨cells, h⟩ := ih { s with fillCells := classListRemove c s.fillCells }
      exact ⟨cells, h⟩
    · simp only [forEachRemoveFill, hc]
      exact ⟨s.fillCells, rfl⟩

theorem forEachRemoveFill_threw (g : Grid) (segs : List Coord) :
    ∀ s : State, (∃ c ∈ segs, hasBlock g c = false) →
      (forEachRemoveFill g segs s).isNormal = false := by
  induction segs with
  | nil => intro s h; obtain ⟨c, hc, _⟩ := h; cases hc
  | cons c cs ih =>
    intro s h
    by_cases hc : hasBlock g c = true
    · simp only [forEachRemoveFill, hc, if_true]
      apply ih
      obtain ⟨d, hd, hd2⟩ := h
      rcases List.mem_cons.1 hd with rfl | hd
      · rw [hc] at hd2; cases hd2
      · exact ⟨d, hd, hd2⟩
    · simp only [forEachRemoveFill, hc]
      rfl

/-! ## What `render` does, case by case -/

theorem forEachAddFill_state (g : Grid) (segs : List Coord) :
    ∀ s : State, ∃ cells, (forEachAddFill g segs s).state = { s with fillCells := cells } := by
  induction segs with
  | nil => intro s; exact ⟨s.fillCells, rfl⟩
  | cons c cs ih =>
    intro s
    by_cases hc : hasBlock g c = true
    · simp only [forEachAddFill, hc, if_true]
      obtain ⟨cells, h⟩ := ih { s with fillCells := classListAdd c s.fillCells }
      exact ⟨cells, h⟩
    · simp only [forEachAddFill, hc]
      exact ⟨s.fillCells, rfl⟩

theorem consumeFood_of_ne (g : Grid) (r1 r2 : Draw) (head : Coord) (s : State)
    (h : head ≠ s.food) : consumeFood g r1 r2 head s = .normal s := by
  have : ¬ (head.x = s.food.x ∧ head.y = s.food.y) := by
    rintro ⟨hx, hy⟩
    apply h
    cases head; cases hf : s.food
    simp_all
  simp only [consumeFood, this, if_false]

theorem consumeFood_of_eq (g : Grid) (r1 r2 : Draw) (head : Coord) (s : State)
    (h : head = s.food) (hb : hasBlock g s.food = true) :
    consumeFood g r1 r2 head s = .normal (eaten g r1 r2 head s) := by
  have hnew := hasBlock_randomFood g r1 r2 s.food hb
  subst h
  simp only [consumeFood, and_self, if_true, hb, hnew, eaten, markFood, persistHighScore,
    growAndScore]
  split <;> rfl

theorem moveSnake_normal (g : Grid) (head : Coord) (s : State)
    (hh : hasBlock g head = true) (hs : ∀ c ∈ s.snake, hasBlock g c = true) :
    moveSnake g head s = .normal (moved head s) := by
  have h2 : ∀ c ∈ (head :: s.snake).dropLast, hasBlock g c = true := by
    intro c hc
    rcases List.mem_cons.1 (List.mem_of_mem_dropLast hc) with rfl | hc
    · exact hh
    · exact hs c hc
  simp only [moveSnake, forEachRemoveFill_normal g s.snake s hs]
  rw [forEachAddFill_normal g _ _ h2]
  rfl

theorem moveSnake_state (g : Grid) (head : Coord) (s : State) :
    ∃ cells, (moveSnake g head s).state = { s with fillCells := cells } ∨
      (moveSnake g head s).state =
        { s with fillCells := cells, snake := (head :: s.snake).dropLast } := by
  unfold moveSnake
  obtain ⟨cells, h⟩ := forEachRemoveFill_state g s.snake s
  cases hr : forEachRemoveFill g s.snake s with
  | threw s1 =>
    rw [hr] at h
    exact ⟨cells, Or.inl h⟩
  | normal s1 =>
    rw [hr] at h
    simp only [Completion.state] at h
    subst h
    simp only
    obtain ⟨cells2, h2⟩ := forEachAddFill_state g (head :: s.snake).dropLast
      { s with fillCells := cells, snake := (head :: s.snake).dropLast }
    exact ⟨cells2, Or.inr h2⟩

theorem render_eq (g : Grid) (r1 r2 : Draw) (s : State) :
    render g r1 r2 s =
      if hasBlock g s.food then
        match s.snake with
        | [] => .threw (foodMarked s)
        | seg0 :: _ =>
          if outside g (newHead s.direction seg0) then .normal (gameOver (foodMarked s))
          else
            match consumeFood g r1 r2 (newHead s.direction seg0) (foodMarked s) with
            | .threw s2 => .threw s2
            | .normal s2 => moveSnake g (newHead s.direction seg0) s2
      else .threw s := rfl

theorem render_of_noBlock (g : Grid) (r1 r2 : Draw) (s : State)
    (h : hasBlock g s.food = false) : render g r1 r2 s = .threw s := by
  simp [render_eq, h]

theorem render_of_nil (g : Grid) (r1 r2 : Draw) (s : State)
    (h : hasBlock g s.food = true) (hs : s.snake = []) :
    render g r1 r2 s = .threw (foodMarked s) := by
  simp [render_eq, h, hs]

theorem render_of_outside (g : Grid) (r1 r2 : Draw) (s : State) (seg0 : Coord)
    (rest : List Coord) (h : hasBlock g s.food = true) (hs : s.snake = seg0 :: rest)
    (ho : outside g (newHead s.direction seg0) = true) :
    render g r1 r2 s = .normal (gameOver (foodMarked s)) := by
  simp [render_eq, h, hs, ho]

theorem render_of_inside (g : Grid) (r1 r2 : Draw) (s : State) (seg0 : Coord)
    (rest : List Coord) (h : hasBlock g s.food = true) (hs : s.snake = seg0 :: rest)
    (ho : outside g (newHead s.direction seg0) = false) :
    render g r1 r2 s =
      if newHead s.direction seg0 = s.food then
        moveSnake g (newHead s.direction seg0)
          (eaten g r1 r2 (newHead s.direction seg0) (foodMarked s))
      else moveSnake g (newHead s.direction seg0) (foodMarked s) := by
  rw [render_eq]
  simp only [h, if_true, hs, ho, Bool.false_eq_true, if_false]
  by_cases he : newHead s.direction seg0 = s.food
  · rw [consumeFood_of_eq g r1 r2 _ (foodMarked s) he h, if_pos he]
  · rw [consumeFood_of_ne g r1 r2 _ (foodMarked s) he, if_neg he]

/-! ## Collision (C1) -/

theorem mem_clearInterval {t : Timer} {id : Option Nat} {timers : List Timer}
    (h : t ∈ clearInterval id timers) : t ∈ timers ∧ ∀ i, id = some i → t.id ≠ i := by
  cases id with
  | none => exact ⟨h, fun i hi => by cases hi⟩
  | some j =>
    simp only [clearInterval, List.mem_filter, decide_eq_true_eq] at h
    refine ⟨h.1, fun i hi => ?_⟩
    cases hi
    exact h.2

theorem ended_gameOver (s : State) : ended (gameOver s) := by
  refine ⟨?_, ?_, rfl, rfl, rfl⟩
  · intro i hi t ht
    exact (mem_clearInterval (mem_clearInterval ht).1).2 i hi
  · intro i hi t ht
    exact (mem_clearInterval ht).2 i hi

theorem collides_of_cons (g : Grid) (s : State) (seg0 : Coord) (rest : List Coord)
    (hs : s.snake = seg0 :: rest) : collides g s = outside g (newHead s.direction seg0) := by
  simp [collides, nextHead, hs]

theorem nextHead_of_cons (s : State) (seg0 : Coord) (rest : List Coord)
    (hs : s.snake = seg0 :: rest) : nextHead s = some (newHead s.direction seg0) := by
  simp [nextHead, hs]

theorem endsGame_of_collides (g : Grid) (r1 r2 : Draw) (s : State)
    (hf : hasBlock g s.food = true) (hc : collides g s = true) : endsGame g r1 r2 s := by
  cases hs : s.snake with
  | nil => simp [collides, nextHead, hs] at hc
  | cons seg0 rest =>
    rw [collides_of_cons g s seg0 rest hs] at hc
    exact ⟨_, render_of_outside g r1 r2 s seg0 rest hf hs hc, ended_gameOver _, rfl, rfl⟩

theorem head_dropLast_cons (head seg0 : Coord) (rest : List Coord) :
    ((head :: seg0 :: rest).dropLast).head? = some head := by
  simp [List.dropLast]

theorem advances_of_inside (g : Grid) (r1 r2 : Draw) (s : State)
    (hf : hasBlock g s.food = true) (hne : s.snake ≠ [])
    (hseg : ∀ c ∈ s.snake, hasBlock g c = true) (hc : collides g s = false) :
    advances g r1 r2 s := by
  cases hs : s.snake with
  | nil => exact absurd hs hne
  | cons seg0 rest =>
    rw [collides_of_cons g s seg0 rest hs] at hc
    have hh : hasBlock g (newHead s.direction seg0) = true := (outside_eq_false_iff _ _).1 hc
    unfold advances
    rw [render_of_inside g r1 r2 s seg0 rest hf hs hc, nextHead_of_cons s seg0 rest hs]
    split
    · have hseg2 : ∀ c ∈ (eaten g r1 r2 (newHead s.direction seg0) (foodMarked s)).snake,
          hasBlock g c = true := by
        intro c hcm
        rcases List.mem_cons.1 hcm with rfl | hcm
        · exact hh
        · exact hseg c hcm
      refine ⟨_, moveSnake_normal g _ _ hh hseg2, ?_, rfl, rfl, rfl, rfl⟩
      show ((newHead s.direction seg0 :: newHead s.direction seg0 :: s.snake).dropLast).head? = _
      exact head_dropLast_cons _ _ _
    · have hseg2 : ∀ c ∈ (foodMarked s).snake, hasBlock g c = true := hseg
      refine ⟨_, moveSnake_normal g _ _ hh hseg2, ?_, rfl, rfl, rfl, rfl⟩
      show ((newHead s.direction seg0 :: s.snake).dropLast).head? = _
      rw [hs]
      exact head_dropLast_cons _ _ _

/-- C1 (as amended): in a state whose snake is non-empty and whose food cell has a block,
a tick whose next head fails the bounds test ends the game; a tick whose next head is
inside the grid advances, provided every segment has a block, also when that next head
is a cell of the snake itself; and a head in row 0 moving up collides. -/
theorem render_collision_rule (g : Grid) (r1 r2 : Draw) (s : State)
    (hne : s.snake ≠ []) (hf : hasBlock g s.food = true) :
    (collides g s = true → endsGame g r1 r2 s) ∧
    ((∀ c ∈ s.snake, hasBlock g c = true) → collides g s = false → advances g r1 r2 s) ∧
    ((∀ c ∈ s.snake, hasBlock g c = true) →
      ∀ head, nextHead s = some head → head ∈ s.snake → hasBlock g head = true →
        advances g r1 r2 s) ∧
    (∀ y rest, s.snake = ⟨0, y⟩ :: rest → s.direction = .up →
      collides g s = true ∧ endsGame g r1 r2 s) := by
  refine ⟨endsGame_of_collides g r1 r2 s hf, advances_of_inside g r1 r2 s hf hne, ?_, ?_⟩
  · intro hseg head hh _ hb
    apply advances_of_inside g r1 r2 s hf hne hseg
    simp only [collides, hh]
    exact (outside_eq_false_iff _ _).2 hb
  · intro y rest hs hd
    have hc : collides g s = true := by
      rw [collides_of_cons g s _ rest hs, hd]
      simp [newHead, outside]
    exact ⟨hc, endsGame_of_collides g r1 r2 s hf hc⟩

/-- C1 (as stated) fails.  On a board of one row and four columns, after `ArrowUp` and a
click on start, the next head `(0, 3)` is inside the grid, yet `render` throws on the
segment `(1, 3)` and the snake stays where it is.  On a board without rows the next head
`(2, 3)` is outside the grid, yet `render` throws on the food cell and nothing stops. -/
theorem render_collision_rule_fails :
    ((startState ⟨1, 4⟩ draw0 draw0 none blankDocument ["ArrowUp"]).snake ≠ [] ∧
      collides ⟨1, 4⟩ (startState ⟨1, 4⟩ draw0 draw0 none blankDocument ["ArrowUp"]) = false ∧
      ¬ advances ⟨1, 4⟩ draw0 draw0
        (startState ⟨1, 4⟩ draw0 draw0 none blankDocument ["ArrowUp"])) ∧
    ((startState ⟨0, 4⟩ draw0 draw0 none blankDocument []).snake ≠ [] ∧
      collides ⟨0, 4⟩ (startState ⟨0, 4⟩ draw0 draw0 none blankDocument []) = true ∧
      ¬ endsGame ⟨0, 4⟩ draw0 draw0 (startState ⟨0, 4⟩ draw0 draw0 none blankDocument [])) := by
  refine ⟨⟨by decide, by decide, ?_⟩, ⟨by decide, by decide, ?_⟩⟩
  · rintro ⟨s1, h, _⟩
    have hn : (render ⟨1, 4⟩ draw0 draw0
        (startState ⟨1, 4⟩ draw0 draw0 none blankDocument ["ArrowUp"])).isNormal = false := by
      decide
    rw [h] at hn
    cases hn
  · rintro ⟨s1, h, _⟩
    have hn : (render ⟨0, 4⟩ draw0 draw0
        (startState ⟨0, 4⟩ draw0 draw0 none blankDocument [])).isNormal = false := by
      decide
    rw [h] at hn
    cases hn

/-- C1 witness: on the five by five board a snake at `(0, 2)` heading up ends the game. -/
theorem render_collision_rule_witness :
    ({ startState grid5 draw0 draw0 none blankDocument ["ArrowUp"] with
        snake := [⟨0, 2⟩] }).snake ≠ [] ∧
    endsGame grid5 draw0 draw0
      { startState grid5 draw0 draw0 none blankDocument ["ArrowUp"] with snake := [⟨0, 2⟩] } :=
  ⟨by decide,
    ((render_collision_rule grid5 draw0 draw0
      { startState grid5 draw0 draw0 none blankDocument ["ArrowUp"] with snake := [⟨0, 2⟩] }
      (by decide) (by decide)).2.2.2 2 [] rfl rfl).2⟩

/-! ## Length of the snake (C2) -/

theorem eats_of_cons (g : Grid) (s : State) (seg0 : Coord) (rest : List Coord)
    (hs : s.snake = seg0 :: rest) :
    eats g s = (!outside g (newHead s.direction seg0) &&
      decide (newHead s.direction seg0 = s.food)) := by
  simp [eats, nextHead, hs]

theorem eats_of_noBlock (g : Grid) (s : State) (h : hasBlock g s.food = false) :
    eats g s = false := by
  cases hs : s.snake with
  | nil => simp [eats, nextHead, hs]
  | cons seg0 rest =>
    rw [eats_of_cons g s seg0 rest hs]
    by_cases he : newHead s.direction seg0 = s.food
    · have : outside g (newHead s.direction seg0) = true := by
        rw [he]
        exact (outside_eq_true_iff _ _).2 h
      simp [this]
    · simp [he]

theorem moveSnake_length (g : Grid) (head : Coord) (s : State) :
    (moveSnake g head s).state.snake.length = s.snake.length := by
  obtain ⟨cells, h | h⟩ := moveSnake_state g head s
  · rw [h]
  · rw [h]
    simp

theorem render_snake_length (g : Grid) (r1 r2 : Draw) (s : State) :
    (render g r1 r2 s).state.snake.length = s.snake.length + (if eats g s then 1 else 0) := by
  cases hf : hasBlock g s.food with
  | false =>
    rw [render_of_noBlock g r1 r2 s hf, eats_of_noBlock g s hf]
    rfl
  | true =>
    cases hs : s.snake with
    | nil =>
      rw [render_of_nil g r1 r2 s hf hs]
      simp [eats, nextHead, hs, Completion.state, foodMarked]
    | cons seg0 rest =>
      rw [eats_of_cons g s seg0 rest hs]
      cases ho : outside g (newHead s.direction seg0) with
      | true =>
        rw [render_of_outside g r1 r2 s seg0 rest hf hs ho]
        simp [Completion.state, gameOver, foodMarked, hs]
      | false =>
        rw [render_of_inside g r1 r2 s seg0 rest hf hs ho]
        by_cases he : newHead s.direction seg0 = s.food
        · rw [if_pos he, moveSnake_length]
          simp [eaten, foodMarked, hs, he]
        · rw [if_neg he, moveSnake_length]
          simp [foodMarked, hs, he]

/-- C2: a tick leaves the snake one segment longer when it eats (it does not collide and
the next head is the food cell) and as long as before otherwise; this holds in every
state, so in particular for every non-colliding tick of a non-empty snake, and the
length never decreases across a tick. -/
theorem render_length (g : Grid) (r1 r2 : Draw) (s : State) :
    ((render g r1 r2 s).state.snake.length =
      if eats g s then s.snake.length + 1 else s.snake.length) ∧
    (∀ head, nextHead s = some head → outside g head = false →
      (render g r1 r2 s).state.snake.length =
        if head = s.food then s.snake.length + 1 else s.snake.length) ∧
    s.snake.length ≤ (render g r1 r2 s).state.snake.length := by
  have h := render_snake_length g r1 r2 s
  refine ⟨?_, ?_, ?_⟩
  · rw [h]
    split <;> rfl
  · intro head hh ho
    rw [h]
    have : eats g s = decide (head = s.food) := by simp [eats, hh, ho]
    rw [this]
    by_cases he : head = s.food <;> simp [he]
  · rw [h]
    exact Nat.le_add_right _ _

/-- C2 witness: from the start state on the five by five board with the food straight
ahead at `(2, 3)`, one tick makes the snake two segments long. -/
theorem render_length_witness :
    nextHead { startState grid5 draw0 draw0 none blankDocument [] with food := ⟨2, 3⟩ } =
      some ⟨2, 3⟩ ∧
    outside grid5 ⟨2, 3⟩ = false ∧
    (render grid5 draw0 draw0
      { startState grid5 draw0 draw0 none blankDocument [] with food := ⟨2, 3⟩ }).state.snake.length
      = 2 :=
  ⟨by decide, by decide,
    (render_length grid5 draw0 draw0
      { startState grid5 draw0 draw0 none blankDocument [] with food := ⟨2, 3⟩ }).2.1
      ⟨2, 3⟩ (by decide) (by decide)⟩

/-! ## What `restartGame` does -/

theorem restartGame_normal (g : Grid) (r1 r2 : Draw) (s : State)
    (hseg : ∀ c ∈ s.snake, hasBlock g c = true) :
    restartGame g r1 r2 s = .normal (restarted g r1 r2 s) := by
  unfold restartGame restarted
  cases hf : hasBlock g s.food with
  | true =>
    simp only [↓reduceIte]
    rw [forEachRemoveFill_normal g _ _ hseg]
    rfl
  | false =>
    simp only [Bool.false_eq_true, ↓reduceIte]
    rw [forEachRemoveFill_normal g _ _ hseg]
    rfl

theorem restartGame_threw (g : Grid) (r1 r2 : Draw) (s : State)
    (hseg : ∃ c ∈ s.snake, hasBlock g c = false) :
    ∃ fill food, restartGame g r1 r2 s = .threw { s with fillCells := fill, foodCells := food } := by
  unfold restartGame
  cases hf : hasBlock g s.food with
  | true =>
    simp only [↓reduceIte]
    have hn := forEachRemoveFill_threw g s.snake
      { s with foodCells := classListRemove s.food s.foodCells } hseg
    obtain ⟨cells, hst⟩ := forEachRemoveFill_state g s.snake
      { s with foodCells := classListRemove s.food s.foodCells }
    cases hr : forEachRemoveFill g s.snake
        { s with foodCells := classListRemove s.food s.foodCells } with
    | normal s2 => rw [hr] at hn; cases hn
    | threw s2 =>
      rw [hr] at hst
      simp only [Completion.state] at hst
      exact ⟨cells, classListRemove s.food s.foodCells, by rw [hst]⟩
  | false =>
    simp only [Bool.false_eq_true, ↓reduceIte]
    have hn := forEachRemoveFill_threw g s.snake s hseg
    obtain ⟨cells, hst⟩ := forEachRemoveFill_state g s.snake s
    cases hr : forEachRemoveFill g s.snake s with
    | normal s2 => rw [hr] at hn; cases hn
    | threw s2 =>
      rw [hr] at hst
      simp only [Completion.state] at hst
      exact ⟨cells, s.foodCells, by rw [hst]⟩

theorem restartGame_cases (g : Grid) (r1 r2 : Draw) (s : State) :
    ((∀ c ∈ s.snake, hasBlock g c = true) ∧
      restartGame g r1 r2 s = .normal (restarted g r1 r2 s)) ∨
    ∃ fill food, restartGame g r1 r2 s = .threw { s with fillCells := fill, foodCells := food } := by
  by_cases hseg : ∀ c ∈ s.snake, hasBlock g c = true
  · exact Or.inl ⟨hseg, restartGame_normal g r1 r2 s hseg⟩
  · right
    apply restartGame_threw
    simp only [not_forall] at hseg
    obtain ⟨c, hc, hb⟩ := hseg
    exact ⟨c, hc, by simpa using hb⟩

/-! ## Score (C3) -/

theorem moveSnake_score (g : Grid) (head : Coord) (s : State) :
    (moveSnake g head s).state.score = s.score := by
  obtain ⟨cells, h | h⟩ := moveSnake_state g head s <;> rw [h]

theorem render_score (g : Grid) (r1 r2 : Draw) (s : State) :
    (render g r1 r2 s).state.score = if eats g s then s.score + 1 else s.score := by
  cases hf : hasBlock g s.food with
  | false =>
    rw [render_of_noBlock g r1 r2 s hf, eats_of_noBlock g s hf]
    rfl
  | true =>
    cases hs : s.snake with
    | nil =>
      rw [render_of_nil g r1 r2 s hf hs]
      simp [eats, nextHead, hs, Completion.state, foodMarked]
    | cons seg0 rest =>
      rw [eats_of_cons g s seg0 rest hs]
      cases ho : outside g (newHead s.direction seg0) with
      | true =>
        rw [render_of_outside g r1 r2 s seg0 rest hf hs ho]
        simp [Completion.state, gameOver, foodMarked]
      | false =>
        rw [render_of_inside g r1 r2 s seg0 rest hf hs ho]
        by_cases he : newHead s.direction seg0 = s.food
        · rw [if_pos he, moveSnake_score]
          simp [eaten, foodMarked, he]
        · rw [if_neg he, moveSnake_score]
          simp [foodMarked, he]

theorem keydown_score (key : String) (s : State) : (keydown key s).score = s.score := by
  unfold keydown
  split_ifs <;> rfl

theorem restartGame_score (g : Grid) (r1 r2 : Draw) (s : State) :
    (restartGame g r1 r2 s).state.score =
      if (restartGame g r1 r2 s).isNormal then 0 else s.score := by
  rcases restartGame_cases g r1 r2 s with ⟨_, h⟩ | ⟨fill, food, h⟩ <;> rw [h] <;> rfl

theorem run_score (g : Grid) (es : List Event) :
    ∀ (s : State) (n : Nat), s.score = n → (run g es s).score = eatingTicks g es s n := by
  induction es with
  | nil => intro s n h; exact h
  | cons e es ih =>
    intro s n h
    cases e with
    | start => exact ih _ _ h
    | tick r1 r2 =>
      apply ih
      show (render g r1 r2 s).state.score = _
      rw [render_score, h]
    | keydown key =>
      apply ih
      show (keydown key s).score = _
      rw [keydown_score, h]
    | restart r1 r2 =>
      apply ih
      show (restartGame g r1 r2 s).state.score = _
      rw [restartGame_score, h]

theorem run_keydown_score (g : Grid) (keys : List String) :
    ∀ s : State, (run g (keys.map Event.keydown) s).score = s.score := by
  induction keys with
  | nil => intro s; rfl
  | cons k ks ih =>
    intro s
    show (run g (ks.map Event.keydown) (keydown k s)).score = _
    rw [ih, keydown_score]

theorem startState_score (g : Grid) (r1 r2 : Draw) (stored : Option Nat) (doc : Document)
    (keys : List String) : (startState g r1 r2 stored doc keys).score = 0 := by
  show (run g (keys.map Event.keydown) (initialState g r1 r2 stored doc)).score = 0
  rw [run_keydown_score]
  rfl

/-! ## High score (C4) -/

theorem moveSnake_highScore (g : Grid) (head : Coord) (s : State) :
    (moveSnake g head s).state.highScore = s.highScore := by
  obtain ⟨cells, h | h⟩ := moveSnake_state g head s <;> rw [h]

theorem render_highScore (g : Grid) (r1 r2 : Draw) (s : State) :
    (render g r1 r2 s).state.highScore =
      if eats g s then max s.highScore (s.score + 1) else s.highScore := by
  cases hf : hasBlock g s.food with
  | false =>
    rw [render_of_noBlock g r1 r2 s hf, eats_of_noBlock g s hf]
    rfl
  | true =>
    cases hs : s.snake with
    | nil =>
      rw [render_of_nil g r1 r2 s hf hs]
      simp [eats, nextHead, hs, Completion.state, foodMarked]
    | cons seg0 rest =>
      rw [eats_of_cons g s seg0 rest hs]
      cases ho : outside g (newHead s.direction seg0) with
      | true =>
        rw [render_of_outside g r1 r2 s seg0 rest hf hs ho]
        simp [Completion.state, gameOver, foodMarked]
      | false =>
        rw [render_of_inside g r1 r2 s seg0 rest hf hs ho]
        by_cases he : newHead s.direction seg0 = s.food
        · rw [if_pos he, moveSnake_highScore]
          simp only [eaten, foodMarked, he, Bool.not_false, decide_True, Bool.and_self, if_true]
          split <;> omega
        · rw [if_neg he, moveSnake_highScore]
          simp [foodMarked, he]

theorem keydown_highScore (key : String) (s : State) :
    (keydown key s).highScore = s.highScore := by
  unfold keydown
  split_ifs <;> rfl

theorem restartGame_highScore (g : Grid) (r1 r2 : Draw) (s : State) :
    (restartGame g r1 r2 s).state.highScore = s.highScore := by
  rcases restartGame_cases g r1 r2 s with ⟨_, h⟩ | ⟨fill, food, h⟩ <;> rw [h] <;> rfl

theorem step_highScore (g : Grid) (e : Event) (s : State) (h : s.score ≤ s.highScore) :
    (step g e s).highScore = max s.highScore (step g e s).score := by
  cases e with
  | start => exact (Nat.max_eq_left h).symm
  | tick r1 r2 =>
    show (render g r1 r2 s).state.highScore = max _ (render g r1 r2 s).state.score
    rw [render_highScore, render_score]
    split
    · rfl
    · exact (Nat.max_eq_left h).symm
  | keydown key =>
    show (keydown key s).highScore = max _ (keydown key s).score
    rw [keydown_highScore, keydown_score]
    exact (Nat.max_eq_left h).symm
  | restart r1 r2 =>
    show (restartGame g r1 r2 s).state.highScore = max _ (restartGame g r1 r2 s).state.score
    rw [restartGame_highScore, restartGame_score]
    split
    · exact (Nat.max_eq_left (Nat.zero_le _)).symm
    · exact (Nat.max_eq_left h).symm

theorem step_highScore_ge (g : Grid) (e : Event) (s : State) :
    s.highScore ≤ (step g e s).highScore := by
  cases e with
  | start => exact Nat.le_refl _
  | tick r1 r2 =>
    show _ ≤ (render g r1 r2 s).state.highScore
    rw [render_highScore]
    split
    · exact Nat.le_max_left _ _
    · exact Nat.le_refl _
  | keydown key =>
    show _ ≤ (keydown key s).highScore
    rw [keydown_highScore]
  | restart r1 r2 =>
    show _ ≤ (restartGame g r1 r2 s).state.highScore
    rw [restartGame_highScore]

theorem run_highScore (g : Grid) (es : List Event) :
    ∀ s : State, s.score ≤ s.highScore →
      (run g es s).highScore = (scoresReached g es s).foldl max s.highScore ∧
      (run g es s).score ≤ (run g es s).highScore := by
  induction es with
  | nil =>
    intro s h
    exact ⟨(Nat.max_eq_left h).symm, h⟩
  | cons e es ih =>
    intro s h
    have hstep := step_highScore g e s h
    have hle : (step g e s).score ≤ (step g e s).highScore := by
      rw [hstep]
      exact Nat.le_max_right _ _
    obtain ⟨h1, h2⟩ := ih (step g e s) hle
    refine ⟨?_, h2⟩
    show (run g es (step g e s)).highScore =
      (scoresReached g es (step g e s)).foldl max (max s.highScore s.score)
    rw [h1, Nat.max_eq_left h]
    cases es with
    | nil =>
      show max _ _ = max _ _
      rw [hstep, Nat.max_assoc, Nat.max_self]
    | cons e2 es2 =>
      show (scoresReached g es2 _).foldl max (max _ _) = (scoresReached g es2 _).foldl max (max _ _)
      rw [hstep, Nat.max_assoc, Nat.max_self]

/-- C4: no event (start, tick, key press, restart) lowers `highScore`; in every state
reached from the loaded page it is the maximum of the loaded value and all the values
`score` has had so far, and `score` never exceeds it. -/
theorem highScore_is_running_max (g : Grid) (r1 r2 : Draw) (stored : Option Nat)
    (doc : Document) (es : List Event) :
    (∀ (e : Event) (s : State), s.highScore ≤ (step g e s).highScore) ∧
    (run g es (initialState g r1 r2 stored doc)).highScore =
      (scoresReached g es (initialState g r1 r2 stored doc)).foldl max (stored.getD 0) ∧
    (run g es (initialState g r1 r2 stored doc)).score ≤
      (run g es (initialState g r1 r2 stored doc)).highScore :=
  ⟨step_highScore_ge g,
    (run_highScore g es (initialState g r1 r2 stored doc) (Nat.zero_le _)).1,
    (run_highScore g es (initialState g r1 r2 stored doc) (Nat.zero_le _)).2⟩

/-! ## A colliding tick (C5) -/

/-- C5: a colliding tick (the next head fails the bounds test) leaves `snake`, `food`,
`direction`, `score`, `highScore` and `time` as they were. -/
theorem render_collision_frame (g : Grid) (r1 r2 : Draw) (s : State)
    (hc : collides g s = true) :
    (render g r1 r2 s).state.snake = s.snake ∧
    (render g r1 r2 s).state.food = s.food ∧
    (render g r1 r2 s).state.direction = s.direction ∧
    (render g r1 r2 s).state.score = s.score ∧
    (render g r1 r2 s).state.highScore = s.highScore ∧
    (render g r1 r2 s).state.time = s.time := by
  cases hf : hasBlock g s.food with
  | false =>
    rw [render_of_noBlock g r1 r2 s hf]
    exact ⟨rfl, rfl, rfl, rfl, rfl, rfl⟩
  | true =>
    cases hs : s.snake with
    | nil => simp [collides, nextHead, hs] at hc
    | cons seg0 rest =>
      rw [collides_of_cons g s seg0 rest hs] at hc
      rw [render_of_outside g r1 r2 s seg0 rest hf hs hc]
      exact ⟨hs, rfl, rfl, rfl, rfl, rfl⟩

/-- C5 witness: on the five by five board a snake at `(0, 2)` heading up collides. -/
theorem render_collision_frame_witness :
    collides grid5
      { startState grid5 draw0 draw0 none blankDocument ["ArrowUp"] with snake := [⟨0, 2⟩] } =
      true ∧
    (render grid5 draw0 draw0
      { startState grid5 draw0 draw0 none blankDocument ["ArrowUp"] with
        snake := [⟨0, 2⟩] }).state.snake = [⟨0, 2⟩] :=
  ⟨by decide,
    (render_collision_frame grid5 draw0 draw0
      { startState grid5 draw0 draw0 none blankDocument ["ArrowUp"] with snake := [⟨0, 2⟩] }
      (by decide)).1⟩

/-! ## Segments stay on the board -/

theorem render_segments (g : Grid) (r1 r2 : Draw) (s : State)
    (hseg : ∀ c ∈ s.snake, hasBlock g c = true) :
    ∀ c ∈ (render g r1 r2 s).state.snake, hasBlock g c = true := by
  cases hf : hasBlock g s.food with
  | false =>
    rw [render_of_noBlock g r1 r2 s hf]
    exact hseg
  | true =>
    cases hs : s.snake with
    | nil =>
      rw [render_of_nil g r1 r2 s hf hs]
      exact hseg
    | cons seg0 rest =>
      cases ho : outside g (newHead s.direction seg0) with
      | true =>
        rw [render_of_outside g r1 r2 s seg0 rest hf hs ho]
        exact hseg
      | false =>
        have hh : hasBlock g (newHead s.direction seg0) = true := (outside_eq_false_iff _ _).1 ho
        rw [render_of_inside g r1 r2 s seg0 rest hf hs ho]
        have key : ∀ s1 : State, (∀ c ∈ s1.snake, hasBlock g c = true) →
            ∀ c ∈ (moveSnake g (newHead s.direction seg0) s1).state.snake,
              hasBlock g c = true := by
          intro s1 h1 c hc
          obtain ⟨cells, h | h⟩ := moveSnake_state g (newHead s.direction seg0) s1
          · rw [h] at hc
            exact h1 c hc
          · rw [h] at hc
            rcases List.mem_cons.1 (List.mem_of_mem_dropLast hc) with rfl | hc
            · exact hh
            · exact h1 c hc
        split
        · apply key
          intro c hc
          rcases List.mem_cons.1 hc with rfl | hc
          · exact hh
          · exact hseg c hc
        · exact key _ hseg

theorem keydown_snake (key : String) (s : State) : (keydown key s).snake = s.snake := by
  unfold keydown
  split_ifs <;> rfl

theorem step_segments (g : Grid) (hspawn : hasBlock g ⟨1, 3⟩ = true) (e : Event) (s : State)
    (hseg : ∀ c ∈ s.snake, hasBlock g c = true) :
    ∀ c ∈ (step g e s).snake, hasBlock g c = true := by
  cases e with
  | start => exact hseg
  | tick r1 r2 => exact render_segments g r1 r2 s hseg
  | keydown key =>
    show ∀ c ∈ (keydown key s).snake, _
    rw [keydown_snake]
    exact hseg
  | restart r1 r2 =>
    show ∀ c ∈ (restartGame g r1 r2 s).state.snake, _
    rw [restartGame_normal g r1 r2 s hseg]
    intro c hc
    rcases List.mem_singleton.1 hc with rfl
    exact hspawn

theorem run_segments (g : Grid) (hspawn : hasBlock g ⟨1, 3⟩ = true) (es : List Event) :
    ∀ s : State, (∀ c ∈ s.snake, hasBlock g c = true) →
      ∀ c ∈ (run g es s).snake, hasBlock g c = true := by
  induction es with
  | nil => intro s h; exact h
  | cons e es ih =>
    intro s h
    exact ih _ (step_segments g hspawn e s h)

theorem hasBlock_spawn (g : Grid) (hr : 2 ≤ g.rows) (hc : 4 ≤ g.cols) :
    hasBlock g ⟨1, 3⟩ = true := by
  rw [hasBlock_iff]
  simp only
  omega

theorem run_keydown_snake (g : Grid) (keys : List String) :
    ∀ s : State, (run g (keys.map Event.keydown) s).snake = s.snake := by
  induction keys with
  | nil => intro s; rfl
  | cons k ks ih =>
    intro s
    show (run g (ks.map Event.keydown) (keydown k s)).snake = _
    rw [ih, keydown_snake]

theorem startState_snake (g : Grid) (r1 r2 : Draw) (stored : Option Nat) (doc : Document)
    (keys : List String) : (startState g r1 r2 stored doc keys).snake = [⟨1, 3⟩] := by
  show (run g (keys.map Event.keydown) (initialState g r1 r2 stored doc)).snake = _
  rw [run_keydown_snake]
  rfl

/-! ## Restart (C6) -/

/-- C6 (as amended): on a board with at least two rows and four columns, after any
sequence of ticks, key presses and restarts from the click on start, and whatever the
clock shows, `restartGame` returns and leaves `snake`, `direction`, `score` and `time`
as they are in the freshly loaded and started page: `[(1, 3)]`, down, `0`, `00:00`
(and the modal hidden, as after start). -/
theorem restart_resets (g : Grid) (hr : 2 ≤ g.rows) (hc : 4 ≤ g.cols) (r1 r2 r3 r4 : Draw)
    (stored : Option Nat) (doc : Document) (keys : List String) (es : List Event)
    (t : String) :
    ∃ s1, restartGame g r3 r4
        { run g es (startState g r1 r2 stored doc keys) with time := t, timeText := t } =
        .normal s1 ∧
      s1.snake = [⟨1, 3⟩] ∧ s1.direction = .down ∧ s1.score = 0 ∧ s1.time = "00:00" ∧
      s1.snake = (startState g r1 r2 stored doc []).snake ∧
      s1.direction = (startState g r1 r2 stored doc []).direction ∧
      s1.score = (startState g r1 r2 stored doc []).score ∧
      s1.time = (startState g r1 r2 stored doc []).time ∧
      s1.modalDisplay = (startState g r1 r2 stored doc []).modalDisplay := by
  have hspawn := hasBlock_spawn g hr hc
  have hseg : ∀ c ∈ (run g es (startState g r1 r2 stored doc keys)).snake,
      hasBlock g c = true := by
    apply run_segments g hspawn
    rw [startState_snake]
    intro c hc
    rcases List.mem_singleton.1 hc with rfl
    exact hspawn
  exact ⟨_, restartGame_normal g r3 r4 _ hseg, rfl, rfl, rfl, rfl, rfl, rfl, rfl, rfl, rfl⟩

/-- C6 (as stated) fails.  On a board of one row and four columns: click start, press
`ArrowLeft`, one tick (it collides), click restart.  The handler throws on the segment
`(1, 3)` before it resets anything, so `direction` is still left. -/
theorem restart_resets_fails :
    (restartGame ⟨1, 4⟩ draw0 draw0
      (run ⟨1, 4⟩ [.keydown "ArrowLeft", .tick draw0 draw0]
        (startState ⟨1, 4⟩ draw0 draw0 none blankDocument []))).isNormal = false ∧
    (restartGame ⟨1, 4⟩ draw0 draw0
      (run ⟨1, 4⟩ [.keydown "ArrowLeft", .tick draw0 draw0]
        (startState ⟨1, 4⟩ draw0 draw0 none blankDocument []))).state.direction = .left ∧
    (startState ⟨1, 4⟩ draw0 draw0 none blankDocument []).direction = .down := by
  decide

/-- C6 witness: the five by five board, one tick after start, then restart. -/
theorem restart_resets_witness :
    2 ≤ grid5.rows ∧ 4 ≤ grid5.cols ∧
    ∃ s1, restartGame grid5 draw0 draw0
        { run grid5 [.tick draw0 draw0] (startState grid5 draw0 draw0 none blankDocument []) with
          time := "00:07", timeText := "00:07" } = .normal s1 ∧
      s1.snake = [⟨1, 3⟩] ∧ s1.direction = .down ∧ s1.score = 0 ∧ s1.time = "00:00" :=
  ⟨by decide, by decide,
    (restart_resets grid5 (by decide) (by decide) draw0 draw0 draw0 draw0 none blankDocument []
      [.tick draw0 draw0] "00:07").imp fun _ h => ⟨h.1, h.2.1, h.2.2.1, h.2.2.2.1, h.2.2.2.2.1⟩⟩

/-! ## Start (C7) -/

/-- C7 (the failing input): with `ArrowUp` pressed while the start modal shows, the state
after the click on start has `direction` up, not down; `snake` and `score` are as the
claim says. -/
theorem start_keeps_pressed_direction :
    (startState grid5 draw0 draw0 none blankDocument ["ArrowUp"]).direction = .up ∧
    (startState grid5 draw0 draw0 none blankDocument ["ArrowUp"]).snake = [⟨1, 3⟩] ∧
    (startState grid5 draw0 draw0 none blankDocument ["ArrowUp"]).score = 0 := by
  decide

/-! ## Key presses (C9) -/

/-- C9: each arrow key sets `direction` to its own direction, whatever it was, and changes
nothing else; any other key changes nothing at all. -/
theorem keydown_sets_direction (s : State) :
    keydown "ArrowLeft" s = { s with direction := .left } ∧
    keydown "ArrowRight" s = { s with direction := .right } ∧
    keydown "ArrowUp" s = { s with direction := .up } ∧
    keydown "ArrowDown" s = { s with direction := .down } ∧
    (∀ key : String, key ≠ "ArrowLeft" → key ≠ "ArrowRight" → key ≠ "ArrowUp" →
      key ≠ "ArrowDown" → keydown key s = s) := by
  refine ⟨?_, ?_, ?_, ?_, ?_⟩
  · simp [keydown]
  · simp [keydown]
  · simp [keydown]
  · simp [keydown]
  · intro key h1 h2 h3 h4
    simp [keydown, h1, h2, h3, h4]

/-- C9 witness: the space bar leaves the start state as it is. -/
theorem keydown_sets_direction_witness :
    (" " : String) ≠ "ArrowLeft" ∧
    keydown " " (startState grid5 draw0 draw0 none blankDocument []) =
      startState grid5 draw0 draw0 none blankDocument [] :=
  ⟨by decide,
    (keydown_sets_direction (startState grid5 draw0 draw0 none blankDocument [])).2.2.2.2 " "
      (by decide) (by decide) (by decide) (by decide)⟩

/-! ## The first meal (C8) -/

theorem ticks_append (g : Grid) (ds : List (Draw × Draw)) (d : Draw × Draw) :
    ∀ s s1 : State, ticks g ds s = .normal s1 →
      ticks g (ds ++ [d]) s = render g d.1 d.2 s1 := by
  induction ds with
  | nil =>
    intro s s1 h
    cases h
    show (match render g d.1 d.2 s with
      | .normal s1 => ticks g [] s1
      | .threw s1 => .threw s1) = _
    cases render g d.1 d.2 s <;> rfl
  | cons d0 ds ih =>
    intro s s1 h
    simp only [List.cons_append, ticks] at h ⊢
    cases hr : render g d0.1 d0.2 s with
    | normal s2 =>
      rw [hr] at h
      simp only at h ⊢
      exact ih s2 s1 h
    | threw s2 =>
      rw [hr] at h
      cases h

theorem render_down_plain (g : Grid) (r1 r2 : Draw) (s : State) (x r : Nat)
    (hcols : 4 ≤ g.cols) (hr : r < g.rows) (hx : x + 1 < r)
    (hs : s.snake = [⟨x, 3⟩]) (hd : s.direction = .down) (hf : s.food = ⟨r, 3⟩) :
    ∃ s1, render g r1 r2 s = .normal s1 ∧ s1.snake = [⟨(x + 1 : Nat), 3⟩] ∧
      s1.direction = .down ∧ s1.food = ⟨r, 3⟩ ∧ s1.score = s.score := by
  have hfb : hasBlock g s.food = true := by
    rw [hf, hasBlock_iff]
    simp only
    omega
  have hnh : newHead s.direction ⟨x, 3⟩ = ⟨(x + 1 : Nat), 3⟩ := by
    rw [hd]
    simp [newHead]
  have hhb : hasBlock g (newHead s.direction ⟨x, 3⟩) = true := by
    rw [hnh, hasBlock_iff]
    simp only
    omega
  have ho : outside g (newHead s.direction ⟨x, 3⟩) = false := (outside_eq_false_iff _ _).2 hhb
  have hne : newHead s.direction ⟨x, 3⟩ ≠ s.food := by
    rw [hnh, hf]
    intro h
    have := congrArg Coord.x h
    simp only at this
    omega
  have hseg : ∀ c ∈ (foodMarked s).snake, hasBlock g c = true := by
    intro c hc
    have hc2 : c ∈ [(⟨x, 3⟩ : Coord)] := hs ▸ hc
    rcases List.mem_singleton.1 hc2 with rfl
    rw [hasBlock_iff]
    simp only
    omega
  rw [render_of_inside g r1 r2 s _ [] hfb hs ho, if_neg hne,
    moveSnake_normal g _ _ hhb hseg]
  refine ⟨_, rfl, ?_, hd, hf, rfl⟩
  show (newHead s.direction ⟨x, 3⟩ :: s.snake).dropLast = _
  rw [hs, hnh]
  rfl

theorem render_down_eat (g : Grid) (r1 r2 : Draw) (s : State) (x r : Nat)
    (hcols : 4 ≤ g.cols) (hr : r < g.rows) (hx : x + 1 = r)
    (hs : s.snake = [⟨x, 3⟩]) (hd : s.direction = .down) (hf : s.food = ⟨r, 3⟩) :
    ∃ s1, render g r1 r2 s = .normal s1 ∧ s1.snake = [⟨r, 3⟩, ⟨r, 3⟩] ∧
      s1.score = s.score + 1 := by
  have hfb : hasBlock g s.food = true := by
    rw [hf, hasBlock_iff]
    simp only
    omega
  have hnh : newHead s.direction ⟨x, 3⟩ = s.food := by
    rw [hd, hf, ← hx]
    simp [newHead]
  have hhb : hasBlock g (newHead s.direction ⟨x, 3⟩) = true := by
    rw [hnh]
    exact hfb
  have ho : outside g (newHead s.direction ⟨x, 3⟩) = false := (outside_eq_false_iff _ _).2 hhb
  have hseg : ∀ c ∈ (eaten g r1 r2 (newHead s.direction ⟨x, 3⟩) (foodMarked s)).snake,
      hasBlock g c = true := by
    intro c hc
    have hc2 : c ∈ newHead s.direction ⟨x, 3⟩ :: s.snake := hc
    rw [hs] at hc2
    rcases List.mem_cons.1 hc2 with rfl | hc3
    · exact hhb
    · rcases List.mem_singleton.1 hc3 with rfl
      rw [hasBlock_iff]
      simp only
      omega
  rw [render_of_inside g r1 r2 s _ [] hfb hs ho, if_pos hnh,
    moveSnake_normal g _ _ hhb hseg]
  refine ⟨_, rfl, ?_, rfl⟩
  show (newHead s.direction ⟨x, 3⟩ :: newHead s.direction ⟨x, 3⟩ :: s.snake).dropLast = _
  rw [hs, hnh, hf]
  rfl

theorem ticks_down_plain (g : Grid) (r : Nat) (hcols : 4 ≤ g.cols) (hr : r < g.rows)
    (ds : List (Draw × Draw)) :
    ∀ (s : State) (x : Nat), x + ds.length < r → s.snake = [⟨x, 3⟩] →
      s.direction = .down → s.food = ⟨r, 3⟩ →
      ∃ s1, ticks g ds s = .normal s1 ∧ s1.snake = [⟨(x + ds.length : Nat), 3⟩] ∧
        s1.direction = .down ∧ s1.food = ⟨r, 3⟩ ∧ s1.score = s.score := by
  induction ds with
  | nil =>
    intro s x _ hs hd hf
    exact ⟨s, rfl, hs, hd, hf, rfl⟩
  | cons d ds ih =>
    intro s x hx hs hd hf
    simp only [List.length_cons] at hx
    obtain ⟨s1, h1, hs1, hd1, hf1, hsc1⟩ :=
      render_down_plain g d.1 d.2 s x r hcols hr (by omega) hs hd hf
    obtain ⟨s2, h2, hs2, hd2, hf2, hsc2⟩ := ih s1 (x + 1) (by omega) hs1 hd1 hf1
    refine ⟨s2, ?_, ?_, hd2, hf2, by rw [hsc2, hsc1]⟩
    · simp only [ticks, h1]
      exact h2
    · rw [hs2]
      simp only [List.length_cons]
      have : x + 1 + ds.length = x + (ds.length + 1) := by omega
      rw [this]

/-- C8: on a board with at least four columns, with the food at `(r, 3)` for a row
`2 ≤ r < rows`, a snake `[(1, 3)]` heading down with score `0` makes `r - 1` ticks without
an exception, and then its head is at `(r, 3)`, the score is `1` and it has two segments. -/
theorem first_meal (g : Grid) (r : Nat) (hcols : 4 ≤ g.cols) (h2 : 2 ≤ r) (hr : r < g.rows)
    (s : State) (hs : s.snake = [⟨1, 3⟩]) (hd : s.direction = .down) (hsc : s.score = 0)
    (hf : s.food = ⟨r, 3⟩) (ds : List (Draw × Draw)) (hl : ds.length = r - 1) :
    ∃ s1, ticks g ds s = .normal s1 ∧ s1.snake.head? = some ⟨r, 3⟩ ∧ s1.score = 1 ∧
      s1.snake.length = 2 := by
  rcases List.eq_nil_or_concat ds with hnil | ⟨ds0, d, hds⟩
  · rw [hnil] at hl
    simp only [List.length_nil] at hl
    omega
  · rw [List.concat_eq_append] at hds
    subst hds
    simp only [List.length_append, List.length_singleton] at hl
    obtain ⟨s1, h1, hs1, hd1, hf1, hsc1⟩ :=
      ticks_down_plain g r hcols hr ds0 s 1 (by omega) hs hd hf
    obtain ⟨s2, h2, hs2, hsc2⟩ :=
      render_down_eat g d.1 d.2 s1 (1 + ds0.length) r hcols hr (by omega) hs1 hd1 hf1
    refine ⟨s2, ?_, ?_, ?_, ?_⟩
    · rw [ticks_append g ds0 d s s1 h1]
      exact h2
    · rw [hs2]
      rfl
    · rw [hsc2, hsc1, hsc]
    · rw [hs2]
      rfl

/-- C8 witness: the five by five board, food at `(4, 3)`, three ticks. -/
theorem first_meal_witness :
    4 ≤ grid5.cols ∧ (2 : Nat) ≤ 4 ∧ 4 < grid5.rows ∧
    ∃ s1, ticks grid5 [(draw0, draw0), (draw0, draw0), (draw0, draw0)]
        { startState grid5 draw0 draw0 none blankDocument [] with food := ⟨4, 3⟩ } =
        .normal s1 ∧
      s1.snake.head? = some ⟨4, 3⟩ ∧ s1.score = 1 ∧ s1.snake.length = 2 :=
  ⟨by decide, by decide, by decide,
    first_meal grid5 4 (by decide) (by decide) (by decide)
      { startState grid5 draw0 draw0 none blankDocument [] with food := ⟨4, 3⟩ }
      rfl rfl rfl rfl [(draw0, draw0), (draw0, draw0), (draw0, draw0)] rfl⟩

/-! ## The clock (C10) -/

theorem digitChar_toNat (d : Nat) (h : d < 10) : (digitChar d).toNat = 48 + d := by
  interval_cases d <;> rfl

theorem isDigit_digitChar (d : Nat) (h : d < 10) : isDigit (digitChar d) = true := by
  interval_cases d <;> rfl

theorem all_isDigit_toDigits (fuel : Nat) :
    ∀ (n : Nat) (acc : List Char), acc.all isDigit = true →
      (toDigits fuel n acc).all isDigit = true := by
  induction fuel with
  | zero => intro n acc h; exact h
  | succ fuel ih =>
    intro n acc h
    unfold toDigits
    split
    · rename_i hn
      simp only [List.all_cons, isDigit_digitChar n hn, h, Bool.and_self]
    · apply ih
      simp only [List.all_cons, isDigit_digitChar (n % 10) (Nat.mod_lt _ (by decide)), h,
        Bool.and_self]

theorem foldl_toDigits (fuel : Nat) :
    ∀ (n : Nat) (acc : List Char), n < fuel →
      (toDigits fuel n acc).foldl (fun a c => 10 * a + (c.toNat - 48)) 0 =
        acc.foldl (fun a c => 10 * a + (c.toNat - 48)) n := by
  induction fuel with
  | zero => intro n acc h; omega
  | succ fuel ih =>
    intro n acc h
    unfold toDigits
    split
    · rename_i hn
      simp only [List.foldl_cons, digitChar_toNat n hn]
      congr 1
      omega
    · rename_i hn
      rw [ih (n / 10) _ (by omega)]
      simp only [List.foldl_cons, digitChar_toNat (n % 10) (Nat.mod_lt _ (by decide))]
      congr 1
      omega

theorem toDigits_ne_nil (fuel n : Nat) (acc : List Char) :
    1 ≤ (toDigits (fuel + 1) n acc).length := by
  induction fuel generalizing n acc with
  | zero =>
    unfold toDigits
    split
    · simp
    · simp [toDigits]
  | succ fuel ih =>
    unfold toDigits
    split
    · simp
    · exact ih _ _

theorem roundToDouble_of_lt (N : Nat) (h : N < 2 ^ 53) : roundToDouble N = N := by
  unfold roundToDouble
  have : excessBits N N = 0 := by
    cases N with
    | zero => rfl
    | succ k =>
      unfold excessBits
      rw [if_pos h]
  rw [this]
  rfl

theorem increment_of_lt (n : Nat) (h : n < maxExact) :
    increment n = n + 1 ∧ increment n ≤ maxExact := by
  unfold maxExact at h ⊢
  unfold increment
  by_cases h2 : n + 1 < 2 ^ 53
  · rw [roundToDouble_of_lt _ h2]
    exact ⟨rfl, Nat.le_of_lt h2⟩
  · have : n + 1 = 2 ^ 53 := by omega
    rw [this]
    decide

theorem all_isDigit_numberToString (n : Nat) : (numberToString n).all isDigit = true :=
  all_isDigit_toDigits (n + 1) n [] rfl

theorem digitsValue_numberToString (n : Nat) : digitsValue (numberToString n) = n := by
  unfold digitsValue numberToString
  rw [foldl_toDigits (n + 1) n [] (Nat.lt_succ_self n)]
  rfl

theorem all_isDigit_padStart (n : Nat) (cs : List Char) (h : cs.all isDigit = true) :
    (padStart n '0' cs).all isDigit = true := by
  unfold padStart
  rw [List.all_append, h, Bool.and_true, List.all_eq_true]
  intro c hc
  rw [List.eq_of_mem_replicate hc]
  rfl

theorem digitsValue_padStart (n : Nat) (cs : List Char) :
    digitsValue (padStart n '0' cs) = digitsValue cs := by
  unfold digitsValue padStart
  rw [List.foldl_append]
  congr 2
  generalize n - cs.length = k
  induction k with
  | zero => rfl
  | succ k ih =>
    rw [List.replicate_succ, List.foldl_cons]
    exact ih

theorem Number_field (n : Nat) (h : n ≤ maxExact) :
    Number (padStart 2 '0' (numberToString n)) = some n := by
  unfold Number
  rw [digitsValue_padStart, digitsValue_numberToString,
    if_pos ⟨all_isDigit_padStart 2 _ (all_isDigit_numberToString n), h⟩]

theorem le_length_padStart (n : Nat) (c : Char) (cs : List Char) :
    n ≤ (padStart n c cs).length := by
  unfold padStart
  rw [List.length_append, List.length_replicate]
  omega

theorem not_colon_of_all_isDigit (cs : List Char) (h : cs.all isDigit = true) :
    ∀ c ∈ cs, c ≠ ':' := by
  intro c hc hcol
  have := List.all_eq_true.1 h c hc
  rw [hcol] at this
  exact absurd this (by decide)

theorem split_cons (c : Char) (cs : List Char) :
    split (c :: cs) =
      if c = ':' then [] :: split cs
      else
        match split cs with
        | [] => [[c]]
        | p :: ps => (c :: p) :: ps := rfl

theorem split_of_no_colon (cs : List Char) (h : ∀ c ∈ cs, c ≠ ':') : split cs = [cs] := by
  induction cs with
  | nil => rfl
  | cons c cs ih =>
    rw [split_cons, if_neg (h c (List.mem_cons_self _ _)),
      ih fun d hd => h d (List.mem_cons_of_mem _ hd)]

theorem split_append_colon (a b : List Char) (h : ∀ c ∈ a, c ≠ ':') :
    split (a ++ ':' :: b) = a :: split b := by
  induction a with
  | nil =>
    show split (':' :: b) = _
    rw [split_cons, if_pos rfl]
  | cons c cs ih =>
    show split (c :: (cs ++ ':' :: b)) = _
    rw [split_cons, if_neg (h c (List.mem_cons_self _ _)),
      ih fun d hd => h d (List.mem_cons_of_mem _ hd)]

/-- The two fields of a clock text both have at least two characters, all of them digits. -/
theorem split_formatTime (mins secs : Nat) :
    ∃ a b, split (formatTime mins secs).data = [a, b] ∧ 2 ≤ a.length ∧ 2 ≤ b.length ∧
      a.all isDigit = true ∧ b.all isDigit = true := by
  have hm := all_isDigit_padStart 2 _ (all_isDigit_numberToString mins)
  have hs := all_isDigit_padStart 2 _ (all_isDigit_numberToString secs)
  refine ⟨padStart 2 '0' (numberToString mins), padStart 2 '0' (numberToString secs), ?_,
    le_length_padStart _ _ _, le_length_padStart _ _ _, hm, hs⟩
  unfold formatTime
  simp only
  rw [split_append_colon _ _ (not_colon_of_all_isDigit _ hm),
    split_of_no_colon _ (not_colon_of_all_isDigit _ hs)]

theorem parseTime_formatTime (mins secs : Nat) (hm : mins ≤ maxExact) (hs : secs ≤ maxExact) :
    parseTime (formatTime mins secs) = some (mins, secs) := by
  obtain ⟨a, b, hab, _⟩ := split_formatTime mins secs
  have ha := all_isDigit_padStart 2 _ (all_isDigit_numberToString mins)
  have hb := all_isDigit_padStart 2 _ (all_isDigit_numberToString secs)
  unfold parseTime formatTime
  simp only
  rw [split_append_colon _ _ (not_colon_of_all_isDigit _ ha),
    split_of_no_colon _ (not_colon_of_all_isDigit _ hb)]
  simp only [List.map_cons, List.map_nil, Number_field mins hm, Number_field secs hs]

theorem advanceTime_of_parse (time : String) (mins secs : Nat)
    (hp : parseTime time = some (mins, secs)) (hs : secs ≤ 59) (hm : mins < maxExact) :
    ∃ mins1 secs1, advanceTime time = some (formatTime mins1 secs1) ∧
      mins1 ≤ maxExact ∧ secs1 ≤ 59 ∧ 60 * mins1 + secs1 = 60 * mins + secs + 1 := by
  by_cases h59 : secs = 59
  · obtain ⟨h1, h2⟩ := increment_of_lt mins hm
    refine ⟨increment mins, 0, ?_, h2, by omega, by omega⟩
    simp only [advanceTime, hp, h59, if_true]
  · have hsm : secs < maxExact := by
      unfold maxExact
      omega
    obtain ⟨h1, h2⟩ := increment_of_lt secs hsm
    refine ⟨mins, increment secs, ?_, Nat.le_of_lt hm, by omega, by omega⟩
    simp only [advanceTime, hp, h59, if_false]

/-- C10 (as amended): when `time` reads as `mins:secs` with `secs ≤ 59` and
`mins < 2 ^ 53`, one run of the clock callback sets `time` and the time text to the text
of a time that is exactly one second later, whose seconds are again at most 59 and whose
two fields have at least two digits each, and changes nothing else; that text reads back
as the numbers it was made from, and `00:59` becomes `01:00`. -/
theorem clock_advances_one_second (s : State) (mins secs : Nat)
    (hp : parseTime s.time = some (mins, secs)) (hs : secs ≤ 59) (hm : mins < 2 ^ 53) :
    (∃ mins1 secs1,
      clockCallback s =
        some { s with time := formatTime mins1 secs1, timeText := formatTime mins1 secs1 } ∧
      parseTime (formatTime mins1 secs1) = some (mins1, secs1) ∧
      60 * mins1 + secs1 = 60 * mins + secs + 1 ∧ secs1 ≤ 59 ∧
      ∃ a b, split (formatTime mins1 secs1).data = [a, b] ∧ 2 ≤ a.length ∧ 2 ≤ b.length ∧
        a.all isDigit = true ∧ b.all isDigit = true) ∧
    (s.time = "00:59" →
      clockCallback s = some { s with time := "01:00", timeText := "01:00" }) := by
  constructor
  · obtain ⟨mins1, secs1, ha, hm1, hs1, htot⟩ := advanceTime_of_parse s.time mins secs hp hs hm
    have hs1m : secs1 ≤ maxExact := by
      unfold maxExact
      omega
    refine ⟨mins1, secs1, ?_, parseTime_formatTime mins1 secs1 hm1 hs1m, htot, hs1,
      split_formatTime _ _⟩
    simp only [clockCallback, ha]
  · intro ht
    have : advanceTime s.time = some "01:00" := by
      rw [ht]
      decide
    simp only [clockCallback, this]

/-- C10 (as stated) fails.  At `9007199254740992:59` (minutes `2 ^ 53`) the callback reads
the two numbers, the increment of the minutes is lost in the rounding of the double sum,
and the text becomes `9007199254740992:00`: the total is 59 seconds less, not one more. -/
theorem clock_advances_one_second_fails :
    parseTime "9007199254740992:59" = some (9007199254740992, 59) ∧
    (clockCallback { startState grid5 draw0 draw0 none blankDocument [] with
        time := "9007199254740992:59" }).map State.time = some "9007199254740992:00" ∧
    parseTime "9007199254740992:00" = some (9007199254740992, 0) := by
  decide

/-- C10 witness: the clock of the started page at `12:34` and at `00:59`. -/
theorem clock_advances_one_second_witness :
    parseTime { startState grid5 draw0 draw0 none blankDocument [] with
      time := "12:34" }.time = some (12, 34) ∧ (34 : Nat) ≤ 59 ∧ (12 : Nat) < 2 ^ 53 ∧
    (∃ mins1 secs1,
      clockCallback { startState grid5 draw0 draw0 none blankDocument [] with
        time := "12:34" } =
        some { { startState grid5 draw0 draw0 none blankDocument [] with time := "12:34" } with
          time := formatTime mins1 secs1, timeText := formatTime mins1 secs1 } ∧
      60 * mins1 + secs1 = 60 * 12 + 34 + 1 ∧ secs1 ≤ 59) :=
  ⟨by decide, by decide, by decide,
    (clock_advances_one_second
      { startState grid5 draw0 draw0 none blankDocument [] with time := "12:34" } 12 34
      (by decide) (by decide) (by decide)).1.imp fun _ h =>
      h.imp fun _ h2 => ⟨h2.1, h2.2.2.1, h2.2.2.2.1⟩⟩

/-! ## Fields that `render` touches only when it eats -/

theorem render_proj {α : Type} (f : State → α) (g : Grid) (r1 r2 : Draw) (s : State)
    (h1 : ∀ (t : State) (cells : List Coord), f { t with fillCells := cells } = f t)
    (h2 : ∀ (t : State) (l : List Coord), f { t with snake := l } = f t)
    (h3 : ∀ (t : State) (cells : List Coord), f { t with foodCells := cells } = f t)
    (h4 : ∀ t : State, f (gameOver t) = f t) :
    f (render g r1 r2 s).state = if eats g s then f (eaten g r1 r2 s.food s) else f s := by
  have hmove : ∀ (head : Coord) (t : State), f (moveSnake g head t).state = f t := by
    intro head t
    obtain ⟨cells, h | h⟩ := moveSnake_state g head t
    · rw [h, h1]
    · rw [h]
      exact (h2 { t with fillCells := cells } _).trans (h1 t cells)
  have hmark : f (foodMarked s) = f s := h3 s _
  cases hf : hasBlock g s.food with
  | false =>
    rw [render_of_noBlock g r1 r2 s hf, eats_of_noBlock g s hf]
    rfl
  | true =>
    cases hs : s.snake with
    | nil =>
      rw [render_of_nil g r1 r2 s hf hs]
      have : eats g s = false := by simp [eats, nextHead, hs]
      rw [this]
      exact hmark
    | cons seg0 rest =>
      rw [eats_of_cons g s seg0 rest hs]
      cases ho : outside g (newHead s.direction seg0) with
      | true =>
        rw [render_of_outside g r1 r2 s seg0 rest hf hs ho]
        simp only [Bool.not_true, Bool.false_and, Bool.false_eq_true, if_false]
        exact (h4 _).trans hmark
      | false =>
        rw [render_of_inside g r1 r2 s seg0 rest hf hs ho]
        by_cases he : newHead s.direction seg0 = s.food
        · rw [if_pos he, hmove]
          simp only [he, Bool.not_false, decide_True, Bool.and_self, if_true]
          exact (h3 (eaten g r1 r2 s.food s) _)
        · rw [if_neg he, hmove]
          simp only [he, decide_False, Bool.and_false, Bool.false_eq_true, if_false]
          exact hmark

theorem render_food (g : Grid) (r1 r2 : Draw) (s : State) :
    (render g r1 r2 s).state.food = if eats g s then foodAt g r1 r2 else s.food :=
  render_proj State.food g r1 r2 s (fun _ _ => rfl) (fun _ _ => rfl) (fun _ _ => rfl)
    (fun _ => rfl)

theorem eats_hasBlock_food (g : Grid) (s : State) (h : eats g s = true) :
    hasBlock g s.food = true := by
  cases hf : hasBlock g s.food with
  | true => rfl
  | false =>
    rw [eats_of_noBlock g s hf] at h
    cases h

/-! ## Food placement (C11) -/

theorem hasBlock_foodAt (g : Grid) (hr : 0 < g.rows) (hc : 0 < g.cols) (r1 r2 : Draw) :
    hasBlock g (foodAt g r1 r2) = true := by
  rw [hasBlock_iff]
  exact ⟨randomIndex_nonneg _ _, randomIndex_lt _ _ hr, randomIndex_nonneg _ _,
    randomIndex_lt _ _ hc⟩

theorem keydown_food (key : String) (s : State) : (keydown key s).food = s.food := by
  unfold keydown
  split_ifs <;> rfl

theorem step_food (g : Grid) (hr : 0 < g.rows) (hc : 0 < g.cols) (e : Event) (s : State)
    (h : hasBlock g s.food = true) : hasBlock g (step g e s).food = true := by
  cases e with
  | start => exact h
  | tick r1 r2 =>
    show hasBlock g (render g r1 r2 s).state.food = true
    rw [render_food]
    split
    · exact hasBlock_foodAt g hr hc r1 r2
    · exact h
  | keydown key =>
    show hasBlock g (keydown key s).food = true
    rw [keydown_food]
    exact h
  | restart r1 r2 =>
    show hasBlock g (restartGame g r1 r2 s).state.food = true
    rcases restartGame_cases g r1 r2 s with ⟨_, hn⟩ | ⟨fill, food, ht⟩
    · rw [hn]
      exact hasBlock_foodAt g hr hc r1 r2
    · rw [ht]
      exact h

theorem run_food (g : Grid) (hr : 0 < g.rows) (hc : 0 < g.cols) (es : List Event) :
    ∀ s : State, hasBlock g s.food = true → hasBlock g (run g es s).food = true := by
  induction es with
  | nil => intro s h; exact h
  | cons e es ih =>
    intro s h
    exact ih _ (step_food g hr hc e s h)

/-- C11: on a board with at least one row and one column every food placement (when the
script loads, on an eating tick, on a completed restart) is the cell `foodAt g r1 r2`,
which is made of the two draws and the board size alone and satisfies
`0 ≤ row < rows` and `0 ≤ col < cols`; so in every state reached from the loaded page the
food cell is inside the grid. -/
theorem food_inside_grid (g : Grid) (hr : 0 < g.rows) (hc : 0 < g.cols) :
    (∀ r1 r2 : Draw, 0 ≤ (foodAt g r1 r2).x ∧ (foodAt g r1 r2).x < g.rows ∧
      0 ≤ (foodAt g r1 r2).y ∧ (foodAt g r1 r2).y < g.cols) ∧
    (∀ (r1 r2 : Draw) (stored : Option Nat) (doc : Document),
      (initialState g r1 r2 stored doc).food = foodAt g r1 r2) ∧
    (∀ (r1 r2 : Draw) (s : State), eats g s = true →
      (render g r1 r2 s).state.food = foodAt g r1 r2) ∧
    (∀ (r1 r2 : Draw) (s s1 : State), restartGame g r1 r2 s = .normal s1 →
      s1.food = foodAt g r1 r2) ∧
    (∀ (r1 r2 : Draw) (stored : Option Nat) (doc : Document) (es : List Event),
      0 ≤ (run g es (initialState g r1 r2 stored doc)).food.x ∧
      (run g es (initialState g r1 r2 stored doc)).food.x < g.rows ∧
      0 ≤ (run g es (initialState g r1 r2 stored doc)).food.y ∧
      (run g es (initialState g r1 r2 stored doc)).food.y < g.cols) := by
  refine ⟨?_, fun _ _ _ _ => rfl, ?_, ?_, ?_⟩
  · intro r1 r2
    exact (hasBlock_iff g _).1 (hasBlock_foodAt g hr hc r1 r2)
  · intro r1 r2 s he
    rw [render_food, if_pos he]
  · intro r1 r2 s s1 h
    rcases restartGame_cases g r1 r2 s with ⟨_, hn⟩ | ⟨fill, food, ht⟩
    · rw [hn] at h
      cases h
      rfl
    · rw [ht] at h
      cases h
  · intro r1 r2 stored doc es
    exact (hasBlock_iff g _).1
      (run_food g hr hc es _ (hasBlock_foodAt g hr hc r1 r2))

/-- C11 witness: the five by five board with the draws `1 / 2` and `3 / 4` puts the food
at `(2, 3)`; on a board of eleven rows the draw just below `3 / 11` gives row `3`, the
floor of the rounded product, not of the exact one. -/
theorem food_inside_grid_witness :
    0 < grid5.rows ∧ 0 < grid5.cols ∧ foodAt grid5 draw12 draw34 = ⟨2, 3⟩ ∧
    randomIndex drawNear 11 = 3 ∧
    (0 ≤ (foodAt grid5 draw12 draw34).x ∧ (foodAt grid5 draw12 draw34).x < grid5.rows ∧
      0 ≤ (foodAt grid5 draw12 draw34).y ∧ (foodAt grid5 draw12 draw34).y < grid5.cols) :=
  ⟨by decide, by decide, by decide, by decide,
    (food_inside_grid grid5 (by decide) (by decide)).1 draw12 draw34⟩

/-! ## Persisting the high score (C12) -/

theorem render_setItemCalls (g : Grid) (r1 r2 : Draw) (s : State) :
    (render g r1 r2 s).state.setItemCalls =
      if eats g s = true ∧ s.highScore < s.score + 1 then s.setItemCalls + 1
      else s.setItemCalls := by
  have h := render_proj State.setItemCalls g r1 r2 s (fun _ _ => rfl) (fun _ _ => rfl)
    (fun _ _ => rfl) (fun _ => rfl)
  rw [h]
  by_cases he : eats g s = true
  · simp only [he, if_true, true_and, eaten, gt_iff_lt]
  · simp only [he, Bool.false_eq_true, if_false, false_and]

theorem render_storedHighScore (g : Grid) (r1 r2 : Draw) (s : State) :
    (render g r1 r2 s).state.storedHighScore =
      if eats g s = true ∧ s.highScore < s.score + 1 then
        some (String.mk (numberToString (s.score + 1)))
      else s.storedHighScore := by
  have h := render_proj State.storedHighScore g r1 r2 s (fun _ _ => rfl) (fun _ _ => rfl)
    (fun _ _ => rfl) (fun _ => rfl)
  rw [h]
  by_cases he : eats g s = true
  · simp only [he, if_true, true_and, eaten, gt_iff_lt]
  · simp only [he, Bool.false_eq_true, if_false, false_and]

theorem render_highScore_ite (g : Grid) (r1 r2 : Draw) (s : State) :
    (render g r1 r2 s).state.highScore =
      if eats g s = true ∧ s.highScore < s.score + 1 then s.score + 1 else s.highScore := by
  rw [render_highScore]
  by_cases he : eats g s = true
  · simp only [he, if_true, true_and]
    split
    · exact Nat.max_eq_right (Nat.le_of_lt ‹_›)
    · exact Nat.max_eq_left (by omega)
  · simp only [he, Bool.false_eq_true, if_false, false_and]

/-- C12: a tick calls `localStorage.setItem` at most once, and it does so exactly when
`highScore` changes on that tick, which is exactly when the tick eats and the incremented
score exceeds the previous high score; the text written is that of the new high score,
which is the maximum of the previous high score and the new score; a tick that does not
write leaves the slot as it was, and a tick that does not eat never writes. -/
theorem highScore_persisted (g : Grid) (r1 r2 : Draw) (s : State) :
    ((render g r1 r2 s).state.setItemCalls = s.setItemCalls + 1 ∨
      (render g r1 r2 s).state.setItemCalls = s.setItemCalls) ∧
    ((render g r1 r2 s).state.setItemCalls = s.setItemCalls + 1 ↔
      (render g r1 r2 s).state.highScore ≠ s.highScore) ∧
    ((render g r1 r2 s).state.highScore ≠ s.highScore ↔
      (eats g s = true ∧ s.highScore < s.score + 1)) ∧
    ((render g r1 r2 s).state.setItemCalls = s.setItemCalls + 1 →
      (render g r1 r2 s).state.storedHighScore =
        some (String.mk (numberToString (render g r1 r2 s).state.highScore)) ∧
      (render g r1 r2 s).state.highScore =
        max s.highScore (render g r1 r2 s).state.score) ∧
    ((render g r1 r2 s).state.setItemCalls = s.setItemCalls →
      (render g r1 r2 s).state.storedHighScore = s.storedHighScore) ∧
    (eats g s = false →
      (render g r1 r2 s).state.setItemCalls = s.setItemCalls ∧
      (render g r1 r2 s).state.storedHighScore = s.storedHighScore) := by
  rw [render_setItemCalls, render_storedHighScore, render_highScore_ite, render_score]
  by_cases hw : eats g s = true ∧ s.highScore < s.score + 1
  · repeat rw [if_pos hw]
    refine ⟨Or.inl rfl, ⟨fun _ => by omega, fun _ => rfl⟩, ⟨fun _ => hw, fun _ => by omega⟩,
      fun _ => ⟨rfl, by rw [if_pos hw.1, Nat.max_eq_right (Nat.le_of_lt hw.2)]⟩, fun h => by omega,
      fun h => by rw [hw.1] at h; cases h⟩
  · repeat rw [if_neg hw]
    refine ⟨Or.inr rfl, ⟨fun h => by omega, fun h => absurd rfl h⟩,
      ⟨fun h => absurd rfl h, fun h => absurd h hw⟩, fun h => by omega, fun _ => rfl,
      fun _ => ⟨rfl, rfl⟩⟩

/-- C12 witness: from the start state on the five by five board with the food straight
ahead and no stored high score, the first tick writes `1` to the slot. -/
theorem highScore_persisted_witness :
    (render grid5 draw0 draw0
      { startState grid5 draw0 draw0 none blankDocument [] with food := ⟨2, 3⟩ }).state.setItemCalls
      = { startState grid5 draw0 draw0 none blankDocument [] with
          food := ⟨2, 3⟩ }.setItemCalls + 1 ∧
    (render grid5 draw0 draw0
      { startState grid5 draw0 draw0 none blankDocument [] with
        food := ⟨2, 3⟩ }).state.storedHighScore =
      some (String.mk (numberToString (render grid5 draw0 draw0
        { startState grid5 draw0 draw0 none blankDocument [] with
          food := ⟨2, 3⟩ }).state.highScore)) :=
  ⟨by decide,
    ((highScore_persisted grid5 draw0 draw0
      { startState grid5 draw0 draw0 none blankDocument [] with food := ⟨2, 3⟩ }).2.2.2.1
      (by decide)).1⟩

/-! ## The high score on display (C13) -/

/-- C13 (the failing input): five by five board, empty slot, food placed at `(2, 3)`.
The first tick after start eats and raises `highScore` to `1`; the score text is `1` but
the high score text still reads `0`. -/
theorem highScoreText_stale :
    (run grid5 [.start, .tick draw0 draw0]
      (initialState grid5 draw12 draw34 none blankDocument)).highScore = 1 ∧
    (run grid5 [.start, .tick draw0 draw0]
      (initialState grid5 draw12 draw34 none blankDocument)).highScoreText = "0" ∧
    (run grid5 [.start, .tick draw0 draw0]
      (initialState grid5 draw12 draw34 none blankDocument)).score = 1 ∧
    (run grid5 [.start, .tick draw0 draw0]
      (initialState grid5 draw12 draw34 none blankDocument)).scoreText = "1" := by
  decide

/-! ## A board without the spawn cell (C14) -/

theorem moveSnake_threw (g : Grid) (head : Coord) (s : State)
    (h : ∃ c ∈ s.snake, hasBlock g c = false) : (moveSnake g head s).isNormal = false := by
  have hn := forEachRemoveFill_threw g s.snake s h
  unfold moveSnake
  cases hr : forEachRemoveFill g s.snake s with
  | normal s1 => rw [hr] at hn; cases hn
  | threw s1 => rfl

theorem hasBlock_spawn_false (g : Grid) (h : g.rows < 2 ∨ g.cols < 4) :
    hasBlock g ⟨1, 3⟩ = false := by
  cases hb : hasBlock g ⟨1, 3⟩ with
  | false => rfl
  | true =>
    rw [hasBlock_iff] at hb
    simp only at hb
    omega

theorem render_threw_of_spawn (g : Grid) (r1 r2 : Draw) (s : State)
    (hb : hasBlock g ⟨1, 3⟩ = false) (hs : s.snake = [⟨1, 3⟩]) (hc : collides g s = false) :
    (render g r1 r2 s).isNormal = false := by
  cases hf : hasBlock g s.food with
  | false =>
    rw [render_of_noBlock g r1 r2 s hf]
    rfl
  | true =>
    rw [collides_of_cons g s _ [] hs] at hc
    rw [render_of_inside g r1 r2 s _ [] hf hs hc]
    split
    · apply moveSnake_threw
      refine ⟨⟨1, 3⟩, ?_, hb⟩
      show (⟨1, 3⟩ : Coord) ∈ newHead s.direction ⟨1, 3⟩ :: s.snake
      rw [hs]
      exact List.mem_cons_of_mem _ (List.mem_singleton.2 rfl)
    · apply moveSnake_threw
      refine ⟨⟨1, 3⟩, ?_, hb⟩
      show (⟨1, 3⟩ : Coord) ∈ s.snake
      rw [hs]
      exact List.mem_singleton.2 rfl

theorem restartGame_threw_of_spawn (g : Grid) (r1 r2 : Draw) (s : State)
    (hb : hasBlock g ⟨1, 3⟩ = false) (hs : s.snake = [⟨1, 3⟩]) :
    (restartGame g r1 r2 s).isNormal = false := by
  obtain ⟨fill, food, h⟩ := restartGame_threw g r1 r2 s
    ⟨⟨1, 3⟩, by rw [hs]; exact List.mem_singleton.2 rfl, hb⟩
  rw [h]
  rfl

theorem moveSnake_threw_state (g : Grid) (head : Coord) (s : State)
    (h : ∃ c ∈ s.snake, hasBlock g c = false) :
    ∃ cells, moveSnake g head s = .threw { s with fillCells := cells } := by
  have hn := forEachRemoveFill_threw g s.snake s h
  obtain ⟨cells, hst⟩ := forEachRemoveFill_state g s.snake s
  unfold moveSnake
  cases hr : forEachRemoveFill g s.snake s with
  | normal s1 => rw [hr] at hn; cases hn
  | threw s1 =>
    rw [hr] at hst
    simp only [Completion.state] at hst
    exact ⟨cells, by rw [hst]⟩

/-- A snake with a segment that has no block keeps such a segment across every tick,
and a tick that does not collide throws. -/
theorem render_offBoard (g : Grid) (r1 r2 : Draw) (s : State)
    (h : ∃ c ∈ s.snake, hasBlock g c = false) :
    (∃ c ∈ (render g r1 r2 s).state.snake, hasBlock g c = false) ∧
    (collides g s = false → (render g r1 r2 s).isNormal = false) := by
  cases hf : hasBlock g s.food with
  | false =>
    rw [render_of_noBlock g r1 r2 s hf]
    exact ⟨h, fun _ => rfl⟩
  | true =>
    cases hs : s.snake with
    | nil =>
      obtain ⟨c, hc, _⟩ := h
      rw [hs] at hc
      cases hc
    | cons seg0 rest =>
      rw [collides_of_cons g s seg0 rest hs]
      cases ho : outside g (newHead s.direction seg0) with
      | true =>
        rw [render_of_outside g r1 r2 s seg0 rest hf hs ho]
        exact ⟨h, fun hc => by cases hc⟩
      | false =>
        rw [render_of_inside g r1 r2 s seg0 rest hf hs ho]
        obtain ⟨c, hc, hcb⟩ := h
        split
        · obtain ⟨cells, hm⟩ := moveSnake_threw_state g (newHead s.direction seg0)
            (eaten g r1 r2 (newHead s.direction seg0) (foodMarked s))
            ⟨c, List.mem_cons_of_mem _ hc, hcb⟩
          rw [hm]
          exact ⟨⟨c, List.mem_cons_of_mem _ hc, hcb⟩, fun _ => rfl⟩
        · obtain ⟨cells, hm⟩ := moveSnake_threw_state g (newHead s.direction seg0)
            (foodMarked s) ⟨c, hc, hcb⟩
          rw [hm]
          exact ⟨⟨c, hc, hcb⟩, fun _ => rfl⟩

theorem step_offBoard (g : Grid) (e : Event) (s : State)
    (h : ∃ c ∈ s.snake, hasBlock g c = false) :
    ∃ c ∈ (step g e s).snake, hasBlock g c = false := by
  cases e with
  | start => exact h
  | tick r1 r2 => exact (render_offBoard g r1 r2 s h).1
  | keydown key =>
    show ∃ c ∈ (keydown key s).snake, _
    rw [keydown_snake]
    exact h
  | restart r1 r2 =>
    show ∃ c ∈ (restartGame g r1 r2 s).state.snake, _
    obtain ⟨fill, food, ht⟩ := restartGame_threw g r1 r2 s h
    rw [ht]
    exact h

theorem run_offBoard (g : Grid) (es : List Event) :
    ∀ s : State, (∃ c ∈ s.snake, hasBlock g c = false) →
      ∃ c ∈ (run g es s).snake, hasBlock g c = false := by
  induction es with
  | nil => intro s h; exact h
  | cons e es ih =>
    intro s h
    exact ih _ (step_offBoard g e s h)

/-- C14 (as amended): on a board with fewer than two rows or fewer than four columns
loading the script does not fail; it returns the state whose snake is `[(1, 3)]`, a cell
without a block.  The error comes later: in every state reached from the loaded page by
clicks on start, ticks, key presses and clicks on restart, a tick that does not collide
throws, and so does `restartGame`. -/
theorem loadScript_returns (g : Grid) (h : g.rows < 2 ∨ g.cols < 4) (r1 r2 : Draw)
    (stored : Option Nat) (doc : Document) (es : List Event) (r3 r4 : Draw) :
    (loadScript g r1 r2 stored doc).isNormal = true ∧
    (loadScript g r1 r2 stored doc).state.snake = [⟨1, 3⟩] ∧
    (∀ c ∈ (loadScript g r1 r2 stored doc).state.snake, c ∉ blocks g) ∧
    (collides g (run g es (loadScript g r1 r2 stored doc).state) = false →
      (render g r3 r4 (run g es (loadScript g r1 r2 stored doc).state)).isNormal = false) ∧
    (restartGame g r3 r4 (run g es (loadScript g r1 r2 stored doc).state)).isNormal =
      false := by
  have hb := hasBlock_spawn_false g h
  have hoff : ∃ c ∈ (run g es (loadScript g r1 r2 stored doc).state).snake,
      hasBlock g c = false :=
    run_offBoard g es _ ⟨⟨1, 3⟩, List.mem_singleton.2 rfl, hb⟩
  refine ⟨rfl, rfl, ?_, (render_offBoard g r3 r4 _ hoff).2, ?_⟩
  · intro c hc hmem
    rcases List.mem_singleton.1 hc with rfl
    have : hasBlock g ⟨1, 3⟩ = true := by simp [hasBlock, hmem]
    rw [hb] at this
    cases this
  · obtain ⟨fill, food, ht⟩ := restartGame_threw g r3 r4 _ hoff
    rw [ht]
    rfl

/-- C14 (as stated) fails.  On a board of one row and four columns the spawn cell
`(1, 3)` is outside the grid, yet loading the script returns a state, the start button
works, and the first tick (heading down) runs to its end and shows the restart modal. -/
theorem loadScript_returns_off_board :
    hasBlock ⟨1, 4⟩ ⟨1, 3⟩ = false ∧
    (loadScript ⟨1, 4⟩ draw0 draw0 none blankDocument).isNormal = true ∧
    (loadScript ⟨1, 4⟩ draw0 draw0 none blankDocument).state.snake = [⟨1, 3⟩] ∧
    (render ⟨1, 4⟩ draw0 draw0
      (startButtonClick (loadScript ⟨1, 4⟩ draw0 draw0 none blankDocument).state)).isNormal =
      true ∧
    (render ⟨1, 4⟩ draw0 draw0
      (startButtonClick
        (loadScript ⟨1, 4⟩ draw0 draw0 none blankDocument).state)).state.restartGameModalDisplay =
      "flex" := by
  decide

/-- C14 witness: the board of one row and four columns with the food placed at `(0, 3)`:
after `ArrowUp`, start, a tick that eats and `ArrowLeft`, the next tick does not collide
and throws. -/
theorem loadScript_returns_witness :
    ((⟨1, 4⟩ : Grid).rows < 2 ∨ (⟨1, 4⟩ : Grid).cols < 4) ∧
    collides ⟨1, 4⟩
      (run ⟨1, 4⟩ [.keydown "ArrowUp", .start, .tick draw0 draw0, .keydown "ArrowLeft"]
        (loadScript ⟨1, 4⟩ draw0 draw34 none blankDocument).state) = false ∧
    (run ⟨1, 4⟩ [.keydown "ArrowUp", .start, .tick draw0 draw0, .keydown "ArrowLeft"]
      (loadScript ⟨1, 4⟩ draw0 draw34 none blankDocument).state).snake = [⟨0, 3⟩, ⟨1, 3⟩] ∧
    (render ⟨1, 4⟩ draw0 draw0
      (run ⟨1, 4⟩ [.keydown "ArrowUp", .start, .tick draw0 draw0, .keydown "ArrowLeft"]
        (loadScript ⟨1, 4⟩ draw0 draw34 none blankDocument).state)).isNormal = false :=
  ⟨by decide, by decide, by decide,
    (loadScript_returns ⟨1, 4⟩ (by decide) draw0 draw34 none blankDocument
      [.keydown "ArrowUp", .start, .tick draw0 draw0, .keydown "ArrowLeft"]
      draw0 draw0).2.2.2.1 (by decide)⟩

/-! ## A plain move (C15) -/

theorem render_direction (g : Grid) (r1 r2 : Draw) (s : State) :
    (render g r1 r2 s).state.direction = s.direction := by
  have h := render_proj State.direction g r1 r2 s (fun _ _ => rfl) (fun _ _ => rfl)
    (fun _ _ => rfl) (fun _ => rfl)
  rw [h]
  split <;> rfl

theorem dropLast_cons_cons (head seg0 : Coord) (rest : List Coord) :
    (head :: seg0 :: rest).dropLast = head :: (seg0 :: rest).dropLast := by
  simp [List.dropLast]

theorem eats_eq_false_of_ne (g : Grid) (s : State) (seg0 : Coord) (rest : List Coord)
    (hs : s.snake = seg0 :: rest) (hne : newHead s.direction seg0 ≠ s.food) :
    eats g s = false := by
  rw [eats_of_cons g s seg0 rest hs]
  simp [hne]

/-- C15 (as amended): a tick of a snake `seg0 :: rest` whose next head is inside the grid
and is not the food cell leaves `food`, `score`, `highScore` and `direction` as they
were; when the food cell and every segment have a block it returns, and the new snake is
the next head followed by the old snake without its last segment.  The next head is the
first segment moved one cell: up row - 1, down row + 1, left col - 1, right col + 1. -/
theorem render_plain_move (g : Grid) (r1 r2 : Draw) (s : State) (seg0 : Coord)
    (rest : List Coord) (hs : s.snake = seg0 :: rest)
    (ho : outside g (newHead s.direction seg0) = false)
    (hne : newHead s.direction seg0 ≠ s.food) :
    (hasBlock g s.food = true → (∀ c ∈ s.snake, hasBlock g c = true) →
      ∃ s1, render g r1 r2 s = .normal s1 ∧
        s1.snake = newHead s.direction seg0 :: (seg0 :: rest).dropLast) ∧
    (render g r1 r2 s).state.food = s.food ∧
    (render g r1 r2 s).state.score = s.score ∧
    (render g r1 r2 s).state.highScore = s.highScore ∧
    (render g r1 r2 s).state.direction = s.direction ∧
    newHead .up seg0 = ⟨seg0.x - 1, seg0.y⟩ ∧ newHead .down seg0 = ⟨seg0.x + 1, seg0.y⟩ ∧
    newHead .left seg0 = ⟨seg0.x, seg0.y - 1⟩ ∧ newHead .right seg0 = ⟨seg0.x, seg0.y + 1⟩ := by
  have he := eats_eq_false_of_ne g s seg0 rest hs hne
  refine ⟨?_, ?_, ?_, ?_, render_direction g r1 r2 s, rfl, rfl, rfl, rfl⟩
  · intro hf hseg
    have hh : hasBlock g (newHead s.direction seg0) = true := (outside_eq_false_iff _ _).1 ho
    rw [render_of_inside g r1 r2 s seg0 rest hf hs ho, if_neg hne,
      moveSnake_normal g _ (foodMarked s) hh hseg]
    refine ⟨_, rfl, ?_⟩
    show (newHead s.direction seg0 :: s.snake).dropLast = _
    rw [hs, dropLast_cons_cons]
  · rw [render_food, he]
    rfl
  · rw [render_score, he]
    rfl
  · rw [render_highScore, he]
    rfl

/-- C15 (as stated) fails.  On a board of one row and four columns, after `ArrowUp` and
the click on start, the next head `(0, 3)` is inside the grid and is not the food cell
`(0, 0)`, yet after the tick the snake is still `[(1, 3)]`, not `[(0, 3)]`.  Likewise a
state of the five by five board whose food cell is `(7, 7)`: the next head `(2, 3)` is
inside the grid and is not the food cell, yet `render` throws on line 67 and the snake
stays `[(1, 3)]`. -/
theorem render_plain_move_fails :
    ((startState ⟨1, 4⟩ draw0 draw0 none blankDocument ["ArrowUp"]).snake = [⟨1, 3⟩] ∧
      nextHead (startState ⟨1, 4⟩ draw0 draw0 none blankDocument ["ArrowUp"]) = some ⟨0, 3⟩ ∧
      outside ⟨1, 4⟩ ⟨0, 3⟩ = false ∧
      (startState ⟨1, 4⟩ draw0 draw0 none blankDocument ["ArrowUp"]).food = ⟨0, 0⟩ ∧
      (render ⟨1, 4⟩ draw0 draw0
        (startState ⟨1, 4⟩ draw0 draw0 none blankDocument ["ArrowUp"])).state.snake =
        [⟨1, 3⟩]) ∧
    (nextHead { startState grid5 draw0 draw0 none blankDocument [] with food := ⟨7, 7⟩ } =
        some ⟨2, 3⟩ ∧
      outside grid5 ⟨2, 3⟩ = false ∧
      (render grid5 draw0 draw0
        { startState grid5 draw0 draw0 none blankDocument [] with
          food := ⟨7, 7⟩ }).state.snake = [⟨1, 3⟩]) := by
  decide

/-- C15 witness: the first tick after start on the five by five board, food at `(0, 0)`. -/
theorem render_plain_move_witness :
    outside grid5 (newHead (startState grid5 draw0 draw0 none blankDocument []).direction
      ⟨1, 3⟩) = false ∧
    ∃ s1, render grid5 draw0 draw0 (startState grid5 draw0 draw0 none blankDocument []) =
        .normal s1 ∧ s1.snake = [⟨2, 3⟩] :=
  ⟨by decide,
    (render_plain_move grid5 draw0 draw0 (startState grid5 draw0 draw0 none blankDocument [])
      ⟨1, 3⟩ [] rfl (by decide) (by decide)).1 (by decide) (by decide)⟩

/-- C16 (the failing input): five by five board, food placed at `(2, 3)`, snake `[(1, 3)]`
heading down.  The first tick after start eats, and afterwards the snake is
`[(2, 3), (2, 3)]`: the cell `(1, 3)` it occupied is no longer one of its segments. -/
theorem eating_drops_tail :
    (run grid5 [.start] (initialState grid5 draw12 draw34 none blankDocument)).snake =
      [⟨1, 3⟩] ∧
    eats grid5 (run grid5 [.start] (initialState grid5 draw12 draw34 none blankDocument)) =
      true ∧
    (run grid5 [.start, .tick draw0 draw0]
      (initialState grid5 draw12 draw34 none blankDocument)).snake = [⟨2, 3⟩, ⟨2, 3⟩] ∧
    (⟨1, 3⟩ : Coord) ∉ (run grid5 [.start, .tick draw0 draw0]
      (initialState grid5 draw12 draw34 none blankDocument)).snake := by
  decide

/-! ## An eating move (C17) -/

/-- C17 (as amended): a tick of a snake `seg0 :: rest` whose next head is inside the grid
and is the food cell returns when every segment has a block, and the new snake is the
next head twice, followed by the old snake without its last segment; so its first two
segments are one cell and it covers at most as many cells as it has segments less one. -/
theorem render_eating_move (g : Grid) (r1 r2 : Draw) (s : State) (seg0 : Coord)
    (rest : List Coord) (hs : s.snake = seg0 :: rest)
    (ho : outside g (newHead s.direction seg0) = false)
    (he : newHead s.direction seg0 = s.food)
    (hseg : ∀ c ∈ s.snake, hasBlock g c = true) :
    ∃ s1, render g r1 r2 s = .normal s1 ∧
      s1.snake =
        newHead s.direction seg0 :: newHead s.direction seg0 :: (seg0 :: rest).dropLast ∧
      s1.snake.get? 0 = s1.snake.get? 1 ∧
      s1.snake.dedup.length ≤ s1.snake.length - 1 := by
  have hh : hasBlock g (newHead s.direction seg0) = true := (outside_eq_false_iff _ _).1 ho
  have hf : hasBlock g s.food = true := he ▸ hh
  have hseg2 : ∀ c ∈ (eaten g r1 r2 (newHead s.direction seg0) (foodMarked s)).snake,
      hasBlock g c = true := by
    intro c hc
    rcases List.mem_cons.1 hc with rfl | hc
    · exact hh
    · exact hseg c hc
  have hsn : (moved (newHead s.direction seg0)
      (eaten g r1 r2 (newHead s.direction seg0) (foodMarked s))).snake =
      newHead s.direction seg0 :: newHead s.direction seg0 :: (seg0 :: rest).dropLast := by
    show (newHead s.direction seg0 :: newHead s.direction seg0 :: s.snake).dropLast = _
    rw [hs, dropLast_cons_cons, dropLast_cons_cons]
  rw [render_of_inside g r1 r2 s seg0 rest hf hs ho, if_pos he,
    moveSnake_normal g _ _ hh hseg2]
  refine ⟨_, rfl, hsn, ?_, ?_⟩
  · rw [hsn]
    rfl
  · rw [hsn, List.dedup_cons_of_mem (List.mem_cons_self _ _)]
    exact (List.dedup_sublist _).length_le

/-- C17 (as stated) fails.  On a board of one row and four columns with the food placed
at `(0, 3)`, after `ArrowUp` and the click on start the tick eats, but `render` throws on
the segment `(1, 3)` after the first `unshift`: the snake is `[(0, 3), (1, 3)]` and its
first two segments differ. -/
theorem render_eating_move_fails :
    (startState ⟨1, 4⟩ draw0 draw34 none blankDocument ["ArrowUp"]).snake ≠ [] ∧
    eats ⟨1, 4⟩ (startState ⟨1, 4⟩ draw0 draw34 none blankDocument ["ArrowUp"]) = true ∧
    (render ⟨1, 4⟩ draw0 draw0
      (startState ⟨1, 4⟩ draw0 draw34 none blankDocument ["ArrowUp"])).state.snake =
      [⟨0, 3⟩, ⟨1, 3⟩] ∧
    (render ⟨1, 4⟩ draw0 draw0
      (startState ⟨1, 4⟩ draw0 draw34 none blankDocument ["ArrowUp"])).isNormal = false := by
  decide

/-- C17 witness: the five by five board with the food straight ahead at `(2, 3)`. -/
theorem render_eating_move_witness :
    outside grid5 (newHead (startState grid5 draw12 draw34 none blankDocument []).direction
      ⟨1, 3⟩) = false ∧
    ∃ s1, render grid5 draw0 draw0 (startState grid5 draw12 draw34 none blankDocument []) =
        .normal s1 ∧ s1.snake = [⟨2, 3⟩, ⟨2, 3⟩] :=
  ⟨by decide,
    (render_eating_move grid5 draw0 draw0
      (startState grid5 draw12 draw34 none blankDocument []) ⟨1, 3⟩ [] rfl (by decide)
      (by decide) (by decide)).imp fun _ h => ⟨h.1, h.2.1⟩⟩

/-! ## States on the board (C18, C19) -/

theorem mem_classListAdd (c d : Coord) (cells : List Coord) :
    c ∈ classListAdd d cells ↔ c = d ∨ c ∈ cells := by
  unfold classListAdd
  split
  · rename_i h
    constructor
    · exact Or.inr
    · rintro (rfl | hc)
      · exact h
      · exact hc
  · exact List.mem_cons

theorem mem_classListRemove (c d : Coord) (cells : List Coord) :
    c ∈ classListRemove d cells ↔ c ∈ cells ∧ c ≠ d := by
  simp [classListRemove, List.mem_filter]

theorem mem_addFills (c : Coord) (segs : List Coord) :
    ∀ cells : List Coord, c ∈ addFills segs cells ↔ c ∈ segs ∨ c ∈ cells := by
  induction segs with
  | nil => intro cells; simp [addFills]
  | cons d segs ih =>
    intro cells
    show c ∈ addFills segs (classListAdd d cells) ↔ _
    rw [ih, mem_classListAdd, List.mem_cons]
    tauto

theorem mem_removeFills (c : Coord) (segs : List Coord) :
    ∀ cells : List Coord, c ∈ removeFills segs cells ↔ c ∈ cells ∧ c ∉ segs := by
  induction segs with
  | nil => intro cells; simp [removeFills]
  | cons d segs ih =>
    intro cells
    show c ∈ removeFills segs (classListRemove d cells) ↔ _
    rw [ih, mem_classListRemove, List.mem_cons]
    tauto

theorem moved_fill_iff (head : Coord) (t : State) (h : ∀ c ∈ t.fillCells, c ∈ t.snake)
    (c : Coord) : c ∈ (moved head t).fillCells ↔ c ∈ (moved head t).snake := by
  show c ∈ addFills (head :: t.snake).dropLast (removeFills t.snake t.fillCells) ↔
    c ∈ (head :: t.snake).dropLast
  rw [mem_addFills, mem_removeFills]
  constructor
  · rintro (hc | ⟨hc, hn⟩)
    · exact hc
    · exact absurd (h c hc) hn
  · exact Or.inl

theorem render_onBoard_inside (g : Grid) (r1 r2 : Draw) (s : State) (seg0 : Coord)
    (rest : List Coord) (hb : onBoard g s) (hs : s.snake = seg0 :: rest)
    (ho : outside g (newHead s.direction seg0) = false) :
    render g r1 r2 s =
      .normal (moved (newHead s.direction seg0)
        (if newHead s.direction seg0 = s.food then
          eaten g r1 r2 (newHead s.direction seg0) (foodMarked s)
        else foodMarked s)) := by
  obtain ⟨hf, _, hseg, _⟩ := hb
  have hh : hasBlock g (newHead s.direction seg0) = true := (outside_eq_false_iff _ _).1 ho
  rw [render_of_inside g r1 r2 s seg0 rest hf hs ho]
  split
  · apply moveSnake_normal g _ _ hh
    intro c hc
    rcases List.mem_cons.1 hc with rfl | hc
    · exact hh
    · exact hseg c hc
  · exact moveSnake_normal g _ (foodMarked s) hh hseg

theorem render_onBoard_normal (g : Grid) (r1 r2 : Draw) (s : State) (hb : onBoard g s) :
    (render g r1 r2 s).isNormal = true := by
  cases hs : s.snake with
  | nil => exact absurd hs hb.2.1
  | cons seg0 rest =>
    cases ho : outside g (newHead s.direction seg0) with
    | true =>
      rw [render_of_outside g r1 r2 s seg0 rest hb.1 hs ho]
      rfl
    | false =>
      rw [render_onBoard_inside g r1 r2 s seg0 rest hb hs ho]
      rfl

theorem render_fill_iff (g : Grid) (r1 r2 : Draw) (s : State) (hb : onBoard g s)
    (hc : collides g s = false) (c : Coord) :
    c ∈ (render g r1 r2 s).state.fillCells ↔ c ∈ (render g r1 r2 s).state.snake := by
  cases hs : s.snake with
  | nil => exact absurd hs hb.2.1
  | cons seg0 rest =>
    rw [collides_of_cons g s seg0 rest hs] at hc
    rw [render_onBoard_inside g r1 r2 s seg0 rest hb hs hc]
    apply moved_fill_iff
    split
    · intro d hd
      exact List.mem_cons_of_mem _ (hb.2.2.2 d hd)
    · exact hb.2.2.2

theorem render_fill_subset (g : Grid) (r1 r2 : Draw) (s : State) (hb : onBoard g s) :
    ∀ c ∈ (render g r1 r2 s).state.fillCells, c ∈ (render g r1 r2 s).state.snake := by
  cases hc : collides g s with
  | false => exact fun c => (render_fill_iff g r1 r2 s hb hc c).1
  | true =>
    cases hs : s.snake with
    | nil => exact absurd hs hb.2.1
    | cons seg0 rest =>
      rw [collides_of_cons g s seg0 rest hs] at hc
      rw [render_of_outside g r1 r2 s seg0 rest hb.1 hs hc]
      exact hb.2.2.2

theorem render_snake_ne_nil (g : Grid) (r1 r2 : Draw) (s : State) (h : s.snake ≠ []) :
    (render g r1 r2 s).state.snake ≠ [] := by
  intro hn
  have hl := render_snake_length g r1 r2 s
  rw [hn] at hl
  have : s.snake.length = 0 := by
    simp only [List.length_nil] at hl
    omega
  exact h (List.length_eq_zero.1 this)

theorem keydown_fillCells (key : String) (s : State) :
    (keydown key s).fillCells = s.fillCells := by
  unfold keydown
  split_ifs <;> rfl

theorem step_onBoard (g : Grid) (hspawn : hasBlock g ⟨1, 3⟩ = true) (e : Event) (s : State)
    (hb : onBoard g s) : onBoard g (step g e s) := by
  have hrc := (hasBlock_iff g _).1 hspawn
  simp only at hrc
  have hr : 0 < g.rows := by omega
  have hc : 0 < g.cols := by omega
  refine ⟨step_food g hr hc e s hb.1, ?_, step_segments g hspawn e s hb.2.2.1, ?_⟩
  · cases e with
    | start => exact hb.2.1
    | tick r1 r2 => exact render_snake_ne_nil g r1 r2 s hb.2.1
    | keydown key =>
      show (keydown key s).snake ≠ []
      rw [keydown_snake]
      exact hb.2.1
    | restart r1 r2 =>
      show (restartGame g r1 r2 s).state.snake ≠ []
      rw [restartGame_normal g r1 r2 s hb.2.2.1]
      exact List.cons_ne_nil _ _
  · cases e with
    | start => exact hb.2.2.2
    | tick r1 r2 => exact render_fill_subset g r1 r2 s hb
    | keydown key =>
      show ∀ c ∈ (keydown key s).fillCells, c ∈ (keydown key s).snake
      rw [keydown_snake, keydown_fillCells]
      exact hb.2.2.2
    | restart r1 r2 =>
      show ∀ c ∈ (restartGame g r1 r2 s).state.fillCells,
        c ∈ (restartGame g r1 r2 s).state.snake
      rw [restartGame_normal g r1 r2 s hb.2.2.1]
      intro c hc
      have hc2 : c ∈ removeFills s.snake s.fillCells := hc
      rw [mem_removeFills] at hc2
      exact absurd (hb.2.2.2 c hc2.1) hc2.2

theorem run_onBoard (g : Grid) (hspawn : hasBlock g ⟨1, 3⟩ = true) (es : List Event) :
    ∀ s : State, onBoard g s → onBoard g (run g es s) := by
  induction es with
  | nil => intro s h; exact h
  | cons e es ih =>
    intro s h
    exact ih _ (step_onBoard g hspawn e s h)

theorem initialState_onBoard (g : Grid) (hr : 2 ≤ g.rows) (hc : 4 ≤ g.cols) (r1 r2 : Draw)
    (stored : Option Nat) (doc : Document) : onBoard g (initialState g r1 r2 stored doc) := by
  have hspawn := hasBlock_spawn g hr hc
  refine ⟨hasBlock_foodAt g (by omega) (by omega) r1 r2, List.cons_ne_nil _ _, ?_, ?_⟩
  · intro c hc
    rcases List.mem_singleton.1 hc with rfl
    exact hspawn
  · intro c hc
    cases hc

/-- C18: on a board with at least two rows and four columns, in every state reached from
the loaded page by clicks on start, ticks, key presses and restarts, the snake is not
empty and every segment lies inside the grid; so `render` and `restartGame` find a block
at every lookup and return without an exception. -/
theorem segments_stay_on_board (g : Grid) (hr : 2 ≤ g.rows) (hc : 4 ≤ g.cols) (r1 r2 : Draw)
    (stored : Option Nat) (doc : Document) (es : List Event) :
    (run g es (initialState g r1 r2 stored doc)).snake ≠ [] ∧
    (∀ c ∈ (run g es (initialState g r1 r2 stored doc)).snake,
      0 ≤ c.x ∧ c.x < g.rows ∧ 0 ≤ c.y ∧ c.y < g.cols) ∧
    (∀ c ∈ (run g es (initialState g r1 r2 stored doc)).snake, c ∈ blocks g) ∧
    (∀ r3 r4 : Draw,
      (render g r3 r4 (run g es (initialState g r1 r2 stored doc))).isNormal = true ∧
      (restartGame g r3 r4 (run g es (initialState g r1 r2 stored doc))).isNormal = true) := by
  have hb := run_onBoard g (hasBlock_spawn g hr hc) es _
    (initialState_onBoard g hr hc r1 r2 stored doc)
  refine ⟨hb.2.1, ?_, ?_, ?_⟩
  · intro c hcm
    exact (hasBlock_iff g c).1 (hb.2.2.1 c hcm)
  · intro c hcm
    exact (mem_blocks_iff g c).2 ((hasBlock_iff g c).1 (hb.2.2.1 c hcm))
  · intro r3 r4
    refine ⟨render_onBoard_normal g r3 r4 _ hb, ?_⟩
    rw [restartGame_normal g r3 r4 _ hb.2.2.1]
    rfl

/-- C18 witness: the five by five board after start, `ArrowLeft` and two ticks. -/
theorem segments_stay_on_board_witness :
    2 ≤ grid5.rows ∧ 4 ≤ grid5.cols ∧
    (run grid5 [.start, .keydown "ArrowLeft", .tick draw0 draw0, .tick draw0 draw0]
      (initialState grid5 draw0 draw0 none blankDocument)).snake ≠ [] :=
  ⟨by decide, by decide,
    (segments_stay_on_board grid5 (by decide) (by decide) draw0 draw0 none blankDocument
      [.start, .keydown "ArrowLeft", .tick draw0 draw0, .tick draw0 draw0]).1⟩

/-- C19: on a board with at least two rows and four columns, after every tick that does
not collide, in any run from the loaded page (clicks on start, ticks, key presses,
restarts), a cell carries `fill` exactly when it is a segment of the snake. -/
theorem fill_is_snake (g : Grid) (hr : 2 ≤ g.rows) (hc : 4 ≤ g.cols) (r1 r2 : Draw)
    (stored : Option Nat) (doc : Document) (es : List Event) (r3 r4 : Draw)
    (hn : collides g (run g es (initialState g r1 r2 stored doc)) = false) (c : Coord) :
    c ∈ (render g r3 r4 (run g es (initialState g r1 r2 stored doc))).state.fillCells ↔
      c ∈ (render g r3 r4 (run g es (initialState g r1 r2 stored doc))).state.snake :=
  render_fill_iff g r3 r4 _
    (run_onBoard g (hasBlock_spawn g hr hc) es _
      (initialState_onBoard g hr hc r1 r2 stored doc)) hn c

/-- C19 witness: the five by five board, the second tick after start, at the cell
`(3, 3)`. -/
theorem fill_is_snake_witness :
    2 ≤ grid5.rows ∧ 4 ≤ grid5.cols ∧
    collides grid5 (run grid5 [.start, .tick draw0 draw0]
      (initialState grid5 draw0 draw0 none blankDocument)) = false ∧
    ((⟨3, 3⟩ : Coord) ∈ (render grid5 draw0 draw0 (run grid5 [.start, .tick draw0 draw0]
        (initialState grid5 draw0 draw0 none blankDocument))).state.fillCells ↔
      (⟨3, 3⟩ : Coord) ∈ (render grid5 draw0 draw0 (run grid5 [.start, .tick draw0 draw0]
        (initialState grid5 draw0 draw0 none blankDocument))).state.snake) :=
  ⟨by decide, by decide, by decide,
    fill_is_snake grid5 (by decide) (by decide) draw0 draw0 none blankDocument
      [.start, .tick draw0 draw0] draw0 draw0 (by decide) ⟨3, 3⟩⟩

/-! ## Score, counted from every click on restart (C3) -/

theorem startState_onBoard (g : Grid) (hr : 2 ≤ g.rows) (hc : 4 ≤ g.cols) (r1 r2 : Draw)
    (stored : Option Nat) (doc : Document) (keys : List String) :
    onBoard g (startState g r1 r2 stored doc keys) :=
  step_onBoard g (hasBlock_spawn g hr hc) .start _
    (run_onBoard g (hasBlock_spawn g hr hc) _ _ (initialState_onBoard g hr hc r1 r2 stored doc))

theorem eatingTicks_eq_since (g : Grid) (hspawn : hasBlock g ⟨1, 3⟩ = true)
    (es : List Event) :
    ∀ (s : State) (n : Nat), onBoard g s → (∀ e ∈ es, e.isStart = false) →
      eatingTicks g es s n = eatingTicksSince g es s n := by
  induction es with
  | nil => intro s n _ _; rfl
  | cons e es ih =>
    intro s n hb hes
    have hes2 : ∀ e ∈ es, e.isStart = false := fun e he => hes e (List.mem_cons_of_mem _ he)
    have hb2 := step_onBoard g hspawn e s hb
    cases e with
    | start =>
      have := hes .start (List.mem_cons_self _ _)
      cases this
    | tick r1 r2 => exact ih _ _ hb2 hes2
    | keydown key => exact ih _ _ hb2 hes2
    | restart r1 r2 =>
      show eatingTicks g es _ (if (restartGame g r1 r2 s).isNormal then 0 else n) = _
      rw [restartGame_normal g r1 r2 s hb.2.2.1]
      exact ih _ _ hb2 hes2

/-- C3 (as amended): on a board with at least two rows and four columns, in every state
reached from the click on start by ticks, key presses and clicks on restart, `score` is
the number of eating ticks since the last click on start or on restart. -/
theorem score_counts_eating_ticks (g : Grid) (hr : 2 ≤ g.rows) (hc : 4 ≤ g.cols)
    (r1 r2 : Draw) (stored : Option Nat) (doc : Document) (keys : List String)
    (es : List Event) (hes : ∀ e ∈ es, e.isStart = false) :
    (run g es (startState g r1 r2 stored doc keys)).score =
      eatingTicksSince g es (startState g r1 r2 stored doc keys) 0 := by
  rw [← eatingTicks_eq_since g (hasBlock_spawn g hr hc) es _ 0
    (startState_onBoard g hr hc r1 r2 stored doc keys) hes]
  exact run_score g es _ 0 (startState_score g r1 r2 stored doc keys)

/-- C3 (as stated) fails.  On a board of one row and four columns with the food placed
at `(0, 3)`: `ArrowUp`, click start, a tick that eats (score `1`), a tick that collides,
click restart.  `restartGame` throws on the segment `(1, 3)` (line 175) before line 208
resets the score, so the score is `1` although no tick has eaten since that restart. -/
theorem score_counts_eating_ticks_fails :
    eats ⟨1, 4⟩ (startState ⟨1, 4⟩ draw0 draw34 none blankDocument ["ArrowUp"]) = true ∧
    collides ⟨1, 4⟩ (run ⟨1, 4⟩ [.tick draw0 draw0]
      (startState ⟨1, 4⟩ draw0 draw34 none blankDocument ["ArrowUp"])) = true ∧
    (restartGame ⟨1, 4⟩ draw0 draw0 (run ⟨1, 4⟩ [.tick draw0 draw0, .tick draw0 draw0]
      (startState ⟨1, 4⟩ draw0 draw34 none blankDocument ["ArrowUp"]))).isNormal = false ∧
    (run ⟨1, 4⟩ [.tick draw0 draw0, .tick draw0 draw0, .restart draw0 draw0]
      (startState ⟨1, 4⟩ draw0 draw34 none blankDocument ["ArrowUp"])).score = 1 ∧
    eatingTicksSince ⟨1, 4⟩ [.tick draw0 draw0, .tick draw0 draw0, .restart draw0 draw0]
      (startState ⟨1, 4⟩ draw0 draw34 none blankDocument ["ArrowUp"]) 0 = 0 := by
  decide

/-- C3 witness: the five by five board with the food straight ahead at `(2, 3)`: a tick
that eats, a tick that does not, a restart and one more tick; and the score after the
first tick alone, which is `1`. -/
theorem score_counts_eating_ticks_witness :
    2 ≤ grid5.rows ∧ 4 ≤ grid5.cols ∧
    (∀ e ∈ [Event.tick draw0 draw0, .tick draw0 draw0, .restart draw0 draw0,
      .tick draw0 draw0], e.isStart = false) ∧
    (run grid5 [.tick draw0 draw0, .tick draw0 draw0, .restart draw0 draw0, .tick draw0 draw0]
      (startState grid5 draw12 draw34 none blankDocument [])).score =
      eatingTicksSince grid5
        [.tick draw0 draw0, .tick draw0 draw0, .restart draw0 draw0, .tick draw0 draw0]
        (startState grid5 draw12 draw34 none blankDocument []) 0 ∧
    eatingTicksSince grid5 [.tick draw0 draw0]
      (startState grid5 draw12 draw34 none blankDocument []) 0 = 1 ∧
    (run grid5 [.tick draw0 draw0]
      (startState grid5 draw12 draw34 none blankDocument [])).score = 1 :=
  ⟨by decide, by decide, by decide,
    score_counts_eating_ticks grid5 (by decide) (by decide) draw12 draw34 none blankDocument []
      [.tick draw0 draw0, .tick draw0 draw0, .restart draw0 draw0, .tick draw0 draw0]
      (by decide),
    by decide,
    (score_counts_eating_ticks grid5 (by decide) (by decide) draw12 draw34 none blankDocument []
      [.tick draw0 draw0] (by decide)).trans (by decide)⟩

end Snake
